import Mathlib

/-!
# F3DOptionsTools: the command-line option parser of the f3d application

A shallow embedding of `application/F3DOptionsTools.cxx`.

* `std::string` is `String`; the members of `std::string` the code calls
  (`find`, `find_first_of`, `substr`) are in the namespace `StdString`, with
  `std::string::npos` rendered as `none`.
* `OptionsDict` (`std::map<std::string, std::string>`) is a list of pairs kept
  in key order; `operator[]` followed by assignment is `OptionsDict.assign`.
* The log sink is a list of messages, oldest first.
* The two exceptions `F3DExNoProcess` and `F3DExFailure` and the normal return
  are the three constructors of `Outcome`.
* The argument-parsing library (cxxopts) is not part of the translated file:
  what it hands back to `ParseCLIOptions` (or the exception it throws) is the
  argument `parsed` of `ParseCLIOptions`; `lowLevelParse` gives it for a
  command line, as far as the spec describes the parser.
* The collaborators declared outside the translated file (the text distance,
  the two option tables, the engine queries, the printers' output) are the
  fields of `Externals`.
-/

set_option maxRecDepth 100000

namespace StdString

/-- Index of the first occurrence of `c` in a list of characters. -/
def findChar (c : Char) : List Char → Option Nat
  | [] => none
  | x :: xs => if x = c then some 0 else (findChar c xs).map (· + 1)

/-- The call `s.find(c)` of `std::string`: `none` stands for `npos`. -/
def find (s : String) (c : Char) : Option Nat :=
  findChar c s.data

/-- The call `s.find_first_of(c)` of `std::string` with a single character. -/
def find_first_of (s : String) (c : Char) : Option Nat :=
  findChar c s.data

/-- The call `s.substr(pos, count)` of `std::string`, `count = none` standing
for `npos`. Every call of the translated code has `pos ≤ s.size()`, so the
`std::out_of_range` case of `substr` is never taken. -/
def substr (s : String) (pos : Nat) (count : Option Nat) : String :=
  match count with
  | some n => String.mk ((s.data.drop pos).take n)
  | none => String.mk (s.data.drop pos)

/-- Lexicographic comparison of two character sequences by character code. -/
def lessChars : List Char → List Char → Bool
  | _, [] => false
  | [], _ :: _ => true
  | a :: as, b :: bs =>
    if a.toNat < b.toNat then true
    else if b.toNat < a.toNat then false
    else lessChars as bs

/-- The comparison `a < b` of two `std::string`, the order of the keys of a
`std::map<std::string, std::string>`. -/
def less (a b : String) : Bool :=
  lessChars a.data b.data

end StdString

namespace F3DOptionsTools

/-! ## Log sink and control-flow signals -/

/-- Severity of a message of `f3d::log`. -/
inductive Level where
  | info
  | warn
  | error
  deriving DecidableEq, Repr

/-- One call of `f3d::log::info`, `f3d::log::warn` or `f3d::log::error`: the
arguments of the call concatenated. -/
structure LogMsg where
  level : Level
  text : String
  deriving DecidableEq, Repr

/-- `OptionsDict` is `std::map<std::string, std::string>`. -/
abbrev OptionsDict := List (String × String)

/-- The statement `dict[k] = v` on a `std::map`: the entry of `k` is replaced
when there is one, and a new entry is put at its place in key order
otherwise. -/
def OptionsDict.assign (k v : String) : OptionsDict → OptionsDict
  | [] => [(k, v)]
  | (k', v') :: rest =>
    if k = k' then (k, v) :: rest
    else if StdString.less k k' then (k, v) :: (k', v') :: rest
    else (k', v') :: OptionsDict.assign k v rest

/-- The lookup `dict.find(k)` on a `std::map`: the mapped value, if any. -/
def OptionsDict.find (k : String) : OptionsDict → Option String
  | [] => none
  | (k', v') :: rest => if k = k' then some v' else OptionsDict.find k rest

/-- How a call of `ParseCLIOptions` ends. -/
inductive Outcome where
  | returned (dict : OptionsDict)
  | F3DExNoProcess (what : String)
  | F3DExFailure (what : String)
  deriving DecidableEq, Repr

/-! ## Collaborators declared outside the translated file -/

/-- What `F3DOptionsTools.cxx` uses and does not define. The two tables are
given by the sequence of their entries in iteration order. -/
structure Externals where
  /-- The function `f3d::utils::textDistance(a, b)`, an `unsigned int`. -/
  textDistance : String → String → Nat
  /-- The table `F3DOptionsTools::DefaultAppOptions`. -/
  DefaultAppOptions : List (String × String)
  /-- The table `F3DOptionsTools::LibOptionsNames`. -/
  LibOptionsNames : List (String × String)
  /-- The names given by `f3d::options::getAllNames()`. -/
  getAllNames : List String
  /-- The names given by `f3d::engine::getAllReaderOptionNames()`. -/
  getAllReaderOptionNames : List String
  /-- Messages logged by `PrintHelp`. -/
  PrintHelp : List LogMsg
  /-- Messages logged by `PrintVersion`. -/
  PrintVersion : List LogMsg
  /-- Messages logged by `PrintRenderingBackendList`. -/
  PrintRenderingBackendList : List LogMsg
  /-- Messages logged by `PrintPluginsScan`. -/
  PrintPluginsScan : List LogMsg
  /-- The call `f3d::options::parse<std::vector<std::string>>`. -/
  parsePlugins : String → List String
  /-- Messages logged by `F3DPluginsTools::LoadPlugins(plugins)` followed by
  `PrintReadersList`. -/
  PrintReadersList : List String → List LogMsg

/-- Modelled from the spec: `f3d::utils::textDistance` is defined in the f3d
library, outside the translated file; the spec calls it the string edit
distance with the standard properties, which is the Levenshtein distance
(insertion, deletion and substitution of one character each cost 1). -/
def textDistance (a b : String) : Nat :=
  levenshtein Levenshtein.defaultCost a.data b.data

/-! ## The option catalog -/

/-- The struct `CLIOption`: one option of the command line. An empty
`ValueHelper` marks a true boolean option. -/
structure CLIOption where
  LongName : String
  ShortName : String
  HelpText : String
  ValueHelper : String
  ImplicitValue : String
  deriving DecidableEq, Repr

/-- The struct `CLIGroup`: a named category of options. -/
structure CLIGroup where
  GroupName : String
  Options : List CLIOption
  deriving DecidableEq, Repr

/-- The group `Applicative` of `CLIOptions`. -/
def groupApplicative (F3D_MODULE_DMON : Bool) : CLIGroup :=
  ⟨"Applicative",
    [⟨"output", "", "Render to file", "<png file>", ""⟩,
      ⟨"no-background", "", "No background when render to file", "<bool>", "1"⟩,
      ⟨"help", "h", "Print help", "", ""⟩,
      ⟨"version", "", "Print version details", "", ""⟩,
      ⟨"list-readers", "", "Print the list of readers", "", ""⟩,
      ⟨"force-reader", "", "Force a specific reader to be used, disregarding the file extension", "<reader>", "1"⟩,
      ⟨"list-bindings", "", "Print the list of interaction bindings and exits, ignored with `--no-render`, only considers the first file group.", "<bool>", "1"⟩,
      ⟨"config", "", "Specify the configuration file to use. absolute/relative path or filename/filestem to search in configuration file locations", "<filePath/filename/fileStem>", ""⟩,
      ⟨"no-config", "", "Do not read the configuration file", "<bool>", "1"⟩,
      ⟨"no-render", "", "Do not render anything and quit right after loading the first file, use with --verbose to recover information about a file.", "<bool>", "1"⟩,
      ⟨"rendering-backend", "", "Backend to use when rendering (auto|glx|wgl|egl|osmesa)", "<string>", ""⟩,
      ⟨"list-rendering-backends", "", "Print the list of rendering backends available on this system", "", ""⟩,
      ⟨"max-size", "", "Maximum size in Mib of a file to load, leave empty for unlimited", "<size in Mib>", ""⟩] ++
    (if F3D_MODULE_DMON then
      [⟨"watch", "", "Watch current file and automatically reload it whenever it is modified on disk", "<bool>", "1"⟩]
    else []) ++
    [⟨"frame-rate", "", "Frame rate used to refresh animation and other repeated tasks (watch, UI). Does not impact rendering frame rate.", "<fps>", ""⟩,
      ⟨"load-plugins", "", "List of plugins to load separated with a comma", "<paths or names>", ""⟩,
      ⟨"scan-plugins", "", "Scan standard directories for plugins and display available plugins (result can be incomplete)", "", ""⟩,
      ⟨"screenshot-filename", "", "Screenshot filename", "<filename>", ""⟩]⟩

/-- The group `General` of `CLIOptions`. -/
def groupGeneral : CLIGroup :=
  ⟨"General",
    [⟨"verbose", "", "Set verbose level, providing more information about the loaded data in the console output", "\x7bdebug, info, warning, error, quiet\x7d", "debug"⟩,
      ⟨"loading-progress", "", "Show loading progress bar", "<bool>", "1"⟩,
      ⟨"animation-progress", "", "Show animation progress bar", "<bool>", "1"⟩,
      ⟨"multi-file-mode", "", "Choose the behavior when opening multiple files. \"single\" will show one file at a time, \"all\" will show all files in a single scene, \"dir\" will show files from the same directory in the same scene.", "<single|all|dir>", ""⟩,
      ⟨"recursive-dir-add", "", "Add directories recursively", "<bool>", "1"⟩,
      ⟨"remove-empty-file-groups", "", "Remove file groups that results into an empty scene", "<bool>", "1"⟩,
      ⟨"up", "", "Up direction", "<direction>", ""⟩,
      ⟨"axis", "x", "Show axes", "<bool>", "1"⟩,
      ⟨"grid", "g", "Show grid", "<bool>", "1"⟩,
      ⟨"grid-absolute", "", "Position grid at the absolute origin instead of below the model", "<bool>", "1"⟩,
      ⟨"grid-unit", "", "Size of grid unit square, automatically computed by default", "<value>", ""⟩,
      ⟨"grid-subdivisions", "", "Number of grid subdivisions", "<value>", ""⟩,
      ⟨"grid-color", "", "Color of main grid lines", "<color>", ""⟩,
      ⟨"axes-grid", "", "Enable grid axis", "<bool>", "1"⟩,
      ⟨"edges", "e", "Show cell edges", "<bool>", "1"⟩,
      ⟨"armature", "", "Enable armature visualization", "<bool>", "1"⟩,
      ⟨"camera-index", "", "Select the camera to use", "<index>", ""⟩,
      ⟨"interaction-trackball", "k", "Enable trackball interaction", "<bool>", "1"⟩,
      ⟨"invert-zoom", "", "Invert zoom direction with right mouse click", "<bool>", "1"⟩,
      ⟨"animation-autoplay", "", "Automatically start animation", "<bool>", "1"⟩,
      ⟨"animation-index", "", "Select animation to show (deprecated)", "<index>", ""⟩,
      ⟨"animation-indices", "", "Select animations to show", "<index,index,index>", ""⟩,
      ⟨"animation-speed-factor", "", "Set animation speed factor", "<ratio>", ""⟩,
      ⟨"animation-time", "", "Set animation time to load", "<time>", ""⟩,
      ⟨"font-file", "", "Path to a FreeType compatible font file", "<file_path>", ""⟩,
      ⟨"font-scale", "", "Scale fonts", "<ratio>", ""⟩,
      ⟨"command-script", "", "Path to a script file containing commands to execute", "<file_path>", ""⟩]⟩

/-- The group `Material` of `CLIOptions`. -/
def groupMaterial : CLIGroup :=
  ⟨"Material",
    [⟨"point-sprites", "o", "Show sphere sprites instead of surfaces", "<bool>", "1"⟩,
      ⟨"point-sprites-type", "", "Point sprites type", "<sphere|gaussian>", ""⟩,
      ⟨"point-sprites-size", "", "Point sprites size", "<size>", ""⟩,
      ⟨"point-size", "", "Point size when showing vertices, model specified by default", "<size>", ""⟩,
      ⟨"line-width", "", "Line width when showing edges, model specified by default", "<width>", ""⟩,
      ⟨"backface-type", "", "Backface type, can be visible or hidden, model specified by default", "<visible|hidden>", ""⟩,
      ⟨"color", "", "Solid color", "<color>", ""⟩,
      ⟨"opacity", "", "Opacity", "<opacity>", ""⟩,
      ⟨"roughness", "", "Roughness coefficient (0.0-1.0)", "<roughness>", ""⟩,
      ⟨"metallic", "", "Metallic coefficient (0.0-1.0)", "<metallic>", ""⟩,
      ⟨"base-ior", "", "Index Of Refraction of the base layer (1.0-2.5)", "<base-ior>", ""⟩,
      ⟨"hdri-file", "", "Path to an image file that can be used as a light source and skybox", "<file path>", ""⟩,
      ⟨"hdri-ambient", "f", "Enable HDRI ambient lighting", "<bool>", "1"⟩,
      ⟨"hdri-skybox", "j", "Enable HDRI skybox background", "<bool>", "1"⟩,
      ⟨"texture-matcap", "", "Path to a texture file containing a material capture", "<file path>", ""⟩,
      ⟨"texture-base-color", "", "Path to a texture file that sets the color of the object", "<file path>", ""⟩,
      ⟨"texture-material", "", "Path to a texture file that sets the Occlusion, Roughness and Metallic values of the object", "<file path>", ""⟩,
      ⟨"texture-emissive", "", "Path to a texture file that sets the emitted light of the object", "<file path>", ""⟩,
      ⟨"textures-transform", "", "3x3 matrix to transform textures", "<transform2d>", ""⟩,
      ⟨"emissive-factor", "", "Emissive factor. This value is multiplied with the emissive color when an emissive texture is present", "<color>", ""⟩,
      ⟨"texture-normal", "", "Path to a texture file that sets the normal map of the object", "<file path>", ""⟩,
      ⟨"normal-scale", "", "Normal scale affects the strength of the normal deviation from the normal texture", "<normalScale>", ""⟩]⟩

/-- The group `Window` of `CLIOptions`. -/
def groupWindow : CLIGroup :=
  ⟨"Window",
    [⟨"background-color", "", "Background color", "<color>", ""⟩,
      ⟨"resolution", "", "Window resolution", "<width,height>", ""⟩,
      ⟨"position", "", "Window position", "<x,y>", ""⟩,
      ⟨"fps", "z", "Display rendering frame per second", "<bool>", "1"⟩,
      ⟨"filename", "n", "Display filename", "<bool>", "1"⟩,
      ⟨"metadata", "m", "Display file metadata", "<bool>", "1"⟩,
      ⟨"blur-background", "u", "Blur background", "<bool>", "1"⟩,
      ⟨"blur-coc", "", "Blur circle of confusion radius", "<value>", ""⟩,
      ⟨"light-intensity", "", "Light intensity", "<value>", ""⟩]⟩

/-- The group `Scientific visualization` of `CLIOptions`. -/
def groupScientific : CLIGroup :=
  ⟨"Scientific visualization",
    [⟨"scalar-coloring", "s", "Color by a scalar array", "<bool>", "1"⟩,
      ⟨"coloring-array", "", "Name of the array to color with", "<array_name>", ""⟩,
      ⟨"coloring-component", "y", "Component from the array to color with. -1 means magnitude, -2 or the short option, -y, means direct scalars", "<comp_index>", "-2"⟩,
      ⟨"coloring-by-cells", "c", "Use an array from the cells", "<bool>", "1"⟩,
      ⟨"coloring-range", "", "Custom range for the coloring by array, automatically computed by default", "<min,max>", ""⟩,
      ⟨"coloring-scalar-bar", "b", "Show scalar bar", "<bool>", "1"⟩,
      ⟨"colormap-file", "", "Specify a colormap image", "<filePath/filename/fileStem>", ""⟩,
      ⟨"colormap-discretization", "", "Specify number of colors in colormap", "<int>", ""⟩,
      ⟨"colormap", "", "Specify a custom colormap (ignored if \"colormap-file\" is specified)", "<color_list>", ""⟩,
      ⟨"volume", "v", "Show volume if the file is compatible", "<bool>", "1"⟩,
      ⟨"volume-inverse", "i", "Inverse opacity function for volume rendering", "<bool>", "1"⟩]⟩

/-- The group `Camera` of `CLIOptions`. -/
def groupCamera : CLIGroup :=
  ⟨"Camera",
    [⟨"camera-position", "", "Camera position (overrides camera direction and camera zoom factor if any)", "<X,Y,Z>", ""⟩,
      ⟨"camera-focal-point", "", "Camera focal point", "<X,Y,Z>", ""⟩,
      ⟨"camera-view-up", "", "Camera view up", "<direction>", ""⟩,
      ⟨"camera-view-angle", "", "Camera view angle (non-zero, in degrees)", "<angle>", ""⟩,
      ⟨"camera-direction", "", "Camera direction", "<direction>", ""⟩,
      ⟨"camera-zoom-factor", "", "Camera zoom factor (non-zero)", "<factor>", ""⟩,
      ⟨"camera-azimuth-angle", "", "Camera azimuth angle (in degrees), performed after other camera options", "<angle>", ""⟩,
      ⟨"camera-elevation-angle", "", "Camera elevation angle (in degrees), performed after other camera options", "<angle>", ""⟩,
      ⟨"camera-orthographic", "", "Use an orthographic camera", "<bool>", "1"⟩]⟩

/-- The group `Raytracing` of `CLIOptions`. -/
def groupRaytracing : CLIGroup :=
  ⟨"Raytracing",
    [⟨"raytracing", "r", "Enable raytracing", "<bool>", "1"⟩,
      ⟨"raytracing-samples", "", "Number of samples per pixel", "<samples>", ""⟩,
      ⟨"raytracing-denoise", "d", "Denoise the image", "<bool>", "1"⟩]⟩

/-- The group `PostFX (OpenGL)` of `CLIOptions`. -/
def groupPostFX : CLIGroup :=
  ⟨"PostFX (OpenGL)",
    [⟨"translucency-support", "p", "Enable translucency support, implemented using depth peeling", "<bool>", "1"⟩,
      ⟨"ambient-occlusion", "q", "Enable ambient occlusion providing approximate shadows for better depth perception, implemented using SSAO", "<bool>", "1"⟩,
      ⟨"anti-aliasing", "a", "Enable anti-aliasing", "<bool>", "1"⟩,
      ⟨"anti-aliasing-mode", "", "Select anti-aliasing method (\"fxaa\" or \"ssaa\")", "<string>", "fxaa"⟩,
      ⟨"tone-mapping", "t", "Enable Tone Mapping, providing balanced coloring", "<bool>", "1"⟩,
      ⟨"final-shader", "", "Execute the final shader at the end of the rendering pipeline", "<GLSL code>", ""⟩]⟩

/-- The group `Testing` of `CLIOptions`. -/
def groupTesting : CLIGroup :=
  ⟨"Testing",
    [⟨"reference", "", "Reference", "<png file>", ""⟩,
      ⟨"reference-threshold", "", "Testing threshold", "<threshold>", ""⟩,
      ⟨"interaction-test-record", "", "Path to an interaction log file to record interactions events to", "<file_path>", ""⟩,
      ⟨"interaction-test-play", "", "Path to an interaction log file to play interaction events from when loading a file", "<file_path>", ""⟩]⟩

/-- The array `CLIOptions`: the groups of the catalog in their order, the two
preprocessor conditions of the declaration being the two arguments. -/
def CLIOptions (F3D_MODULE_RAYTRACING F3D_MODULE_DMON : Bool) : List CLIGroup :=
  [groupApplicative F3D_MODULE_DMON, groupGeneral, groupMaterial, groupWindow, groupScientific, groupCamera] ++
    (if F3D_MODULE_RAYTRACING then [groupRaytracing] else []) ++
    [groupPostFX, groupTesting]

/-- The function `CollapseName`: the short name and a comma, when there is a
short name, then the long name. -/
def CollapseName (longName shortName : String) : String :=
  (if shortName ≠ "" then shortName ++ "," else "") ++ longName

/-! ## Closest option -/

/-- The array `CLIBooleans`. -/
def CLIBooleans : List String :=
  ["version", "help", "list-readers", "scan-plugins", "list-rendering-backends", "define", "reset"]

/-- The value `std::numeric_limits<int>::max()`. -/
def INT_MAX : Int := 2147483647

/-- Conversion of an `unsigned int` to `int` (both 32 bits wide), as done by
the initialisation `int distance = f3d::utils::textDistance(key, name)`. -/
def toInt (u : Nat) : Int :=
  if u % 4294967296 < 2147483648 then ((u % 4294967296 : Nat) : Int)
  else ((u % 4294967296 : Nat) : Int) - 4294967296

/-- The lambda `checkDistance` of `GetClosestOption`; the updated `ref` is
returned. -/
def checkDistance (ext : Externals) (key name : String) (ref : String × Int) : String × Int :=
  let distance := toInt (ext.textDistance key name)
  if distance < ref.2 then (key, distance) else ref

/-- The function `F3DOptionsTools::GetClosestOption`. -/
def GetClosestOption (ext : Externals) (option : String) (checkLibAndReaders : Bool) :
    String × Int :=
  let ret : String × Int := ("", INT_MAX)
  let ret := checkDistance ext "input" option ret
  let ret := CLIBooleans.foldl (fun r key => checkDistance ext key option r) ret
  let ret := ext.DefaultAppOptions.foldl (fun r kv => checkDistance ext kv.1 option r) ret
  let ret := ext.LibOptionsNames.foldl (fun r kv => checkDistance ext kv.1 option r) ret
  if checkLibAndReaders then
    let ret := ext.getAllNames.foldl (fun r key => checkDistance ext key option r) ret
    let ret := ext.getAllReaderOptionNames.foldl (fun r key => checkDistance ext key option r) ret
    ret
  else ret

/-- The names `GetClosestOption` probes, in the order it probes them. -/
def probeOrder (ext : Externals) (checkLibAndReaders : Bool) : List String :=
  "input" :: CLIBooleans ++ ext.DefaultAppOptions.map Prod.fst ++ ext.LibOptionsNames.map Prod.fst
    ++ (if checkLibAndReaders then ext.getAllNames ++ ext.getAllReaderOptionNames else [])

/-! ## The parser driver -/

/-- One element of the iteration `for (const auto& res : result)` over a
`cxxopts::ParseResult`: an option that was parsed, with its value. -/
structure KeyValue where
  key : String
  value : String
  deriving DecidableEq, Repr

/-- What cxxopts hands back after `cxxOptions.parse(argc, argv)` returned: the
`cxxopts::ParseResult` and the two vectors it filled by reference. -/
structure ParseResult where
  /-- The call `result.count(name)`. -/
  count : String → Nat
  /-- The call `result[name].as<std::string>()`. -/
  asString : String → String
  /-- The parsed options in the order of the iteration over `result`. -/
  arguments : List KeyValue
  /-- The call `result.unmatched()`. -/
  unmatched : List String
  /-- The vector `defines`, one element per `--define`, in command-line order. -/
  defines : List String
  /-- The vector `resets`, one element per `--reset`, in command-line order. -/
  resets : List String

/-- The registration loop of `ParseCLIOptions`: the name declarations handed
to cxxopts, in the order of the calls. In the group `Applicative` the three
special options `input`, `define` and `reset` come first; every option of the
catalog, boolean or not, is declared under `CollapseName`. -/
def declarations (groups : List CLIGroup) : List String :=
  groups.flatMap (fun optionGroup =>
    (if optionGroup.GroupName = "Applicative" then ["input", "D,define", "R,reset"] else []) ++
      optionGroup.Options.map (fun cliOption =>
        CollapseName cliOption.LongName cliOption.ShortName))

/-- The options the registration loop declares as value-less flags: those
with an empty `ValueHelper`. -/
def declaredFlags (groups : List CLIGroup) : List String :=
  ((groups.flatMap (fun optionGroup => optionGroup.Options)).filter
    (fun cliOption => cliOption.ValueHelper = "")).map (fun cliOption => cliOption.LongName)

/-- Body of the loop over `unmatched`: the messages logged for one
unrecognised token. -/
def reportUnknown (ext : Externals) (unknownOption : String) : List LogMsg :=
  ⟨Level.error, "Unknown option '" ++ unknownOption ++ "'"⟩ ::
    (if StdString.substr unknownOption 0 (some 2) = "--" then
      let equalPos := StdString.find unknownOption '='
      let unknownName := StdString.substr unknownOption 2
        (match equalPos with
         | some p => some (p - 2)
         | none => none)
      let closest := GetClosestOption ext unknownName false
      let closestOption :=
        match equalPos with
        | none => closest.1
        | some p => closest.1 ++ StdString.substr unknownOption p none
      [⟨Level.error, "Did you mean '--" ++ closestOption ++ "'?"⟩]
    else [])

/-- The loop over `unmatched`: the state is the log written so far and the
flag `foundUnknownOption`. -/
def checkUnknown (ext : Externals) (unmatched : List String) : List LogMsg × Bool :=
  unmatched.foldl (fun st unknownOption => (st.1 ++ reportUnknown ext unknownOption, true))
    ([], false)

/-- Body of the loop over `result`: boolean and special options are
discarded, every other parsed option is written into the dictionary. -/
def addArgument (dict : OptionsDict) (res : KeyValue) : OptionsDict :=
  if res.key ∉ CLIBooleans then dict.assign res.key res.value else dict

/-- Body of the loop over `defines`; the state is the log written by the loop
so far and the dictionary. -/
def addDefine (st : List LogMsg × OptionsDict) (define : String) : List LogMsg × OptionsDict :=
  match StdString.find_first_of define '=' with
  | none => (st.1 ++ [⟨Level.warn, "Could not parse a define '" ++ define ++ "'"⟩], st.2)
  | some sepIdx =>
    (st.1, st.2.assign (StdString.substr define 0 (some sepIdx))
      (StdString.substr define (sepIdx + 1) none))

/-- Body of the loop over `resets`. -/
def addReset (dict : OptionsDict) (reset : String) : OptionsDict :=
  dict.assign ("reset-" ++ reset) ""

/-- The three loops that fill `cliOptionsDict`, with the warnings they log. -/
def buildDict (result : ParseResult) : List LogMsg × OptionsDict :=
  let cliOptionsDict : OptionsDict := result.arguments.foldl addArgument []
  let st := result.defines.foldl addDefine ([], cliOptionsDict)
  (st.1, result.resets.foldl addReset st.2)

/-- The function `F3DOptionsTools::ParseCLIOptions` from the point where
cxxopts has done its work: `parsed` is `Except.error what` when cxxopts threw
a `cxxopts::exceptions::exception` (while the options were registered or
while `argv` was parsed), and `Except.ok result` when `parse` returned. The
value is the log written and the way the call ends. -/
def ParseCLIOptions (ext : Externals) (parsed : Except String ParseResult) :
    List LogMsg × Outcome :=
  match parsed with
  | Except.error what =>
    ([⟨Level.error, "Error parsing command line arguments: " ++ what⟩],
      Outcome.F3DExFailure "Could not parse command line arguments")
  | Except.ok result =>
    if result.count "help" > 0 then
      (ext.PrintHelp, Outcome.F3DExNoProcess "help requested")
    else if result.count "version" > 0 then
      (ext.PrintVersion, Outcome.F3DExNoProcess "version requested")
    else if result.count "list-rendering-backends" > 0 then
      (ext.PrintRenderingBackendList, Outcome.F3DExNoProcess "rendering backend list requested")
    else if result.count "scan-plugins" > 0 then
      (ext.PrintPluginsScan, Outcome.F3DExNoProcess "scan plugins requested")
    else if result.count "list-readers" > 0 then
      let plugins : List String :=
        if result.count "load-plugins" > 0 then ext.parsePlugins (result.asString "load-plugins")
        else []
      (ext.PrintReadersList plugins, Outcome.F3DExNoProcess "reader list requested")
    else
      let unknown := checkUnknown ext result.unmatched
      if unknown.2 then
        (unknown.1, Outcome.F3DExFailure "unknown options")
      else
        let built := buildDict result
        (unknown.1 ++ built.1, Outcome.returned built.2)

/-- A command line as the low-level parser meets it: what its tokens hold
(flags, options, unrecognised tokens, defines, resets) and, when its syntax is
malformed, the message of the exception the parser throws. -/
structure CommandLine where
  /-- What the tokens of the command line hold. -/
  holds : ParseResult
  /-- The message of the parser on malformed syntax, `none` for a well-formed
  command line. -/
  malformed : Option String

/-- Modelled from the spec: the argument parser cxxopts is outside the
translated file. By the spec the underlying parser throws on malformed syntax
(the exception the driver catches and re-raises as a failure), and on a
well-formed command line it hands back what the command line holds,
unrecognised options included, since they are permitted at the low-level
parse step. The whole command line is parsed by the one call
`cxxOptions.parse(argc, argv)`, before the driver looks at any flag. -/
def lowLevelParse (commandLine : CommandLine) : Except String ParseResult :=
  match commandLine.malformed with
  | some what => Except.error what
  | none => Except.ok commandLine.holds

/-! ## Vocabulary of the statements -/

/-- Key and value of a define: the text before its first equals sign and the
text after it; `none` for a define without an equals sign. -/
def splitDefine (define : String) : Option (String × String) :=
  match StdString.find_first_of define '=' with
  | none => none
  | some sepIdx =>
    some (StdString.substr define 0 (some sepIdx), StdString.substr define (sepIdx + 1) none)

/-- None of the five informational flags was parsed. -/
def noInformational (result : ParseResult) : Prop :=
  result.count "help" = 0 ∧ result.count "version" = 0 ∧
    result.count "list-rendering-backends" = 0 ∧ result.count "scan-plugins" = 0 ∧
    result.count "list-readers" = 0

/-- The pairs the three loops of `buildDict` assign, in the order they assign
them. -/
def writes (result : ParseResult) : List (String × String) :=
  (result.arguments.filter (fun res => res.key ∉ CLIBooleans)).map (fun res => (res.key, res.value))
    ++ result.defines.filterMap splitDefine
    ++ result.resets.map (fun reset => ("reset-" ++ reset, ""))

/-- Value of the last pair of key `k` in a sequence of assignments. -/
def lastWrite (k : String) : List (String × String) → Option String
  | [] => none
  | (k', v) :: rest =>
    match lastWrite k rest with
    | some w => some w
    | none => if k = k' then some v else none

/-- The error logged first for an unrecognised token. -/
def unknownOptionError (unknownOption : String) : LogMsg :=
  ⟨Level.error, "Unknown option '" ++ unknownOption ++ "'"⟩

/-- The name part of a token that starts with two dashes: the text after the
dashes, up to the first equals sign if there is one. -/
def unknownNameOf (unknownOption : String) : String :=
  StdString.substr unknownOption 2
    (match StdString.find unknownOption '=' with
     | some p => some (p - 2)
     | none => none)

/-- The text of a token from its first equals sign to its end; empty when
the token has no equals sign. -/
def valueSuffixOf (unknownOption : String) : String :=
  match StdString.find unknownOption '=' with
  | none => ""
  | some p => StdString.substr unknownOption p none

/-- All the options of the catalog, group after group. -/
def catalogOptions (groups : List CLIGroup) : List CLIOption :=
  groups.flatMap (fun optionGroup => optionGroup.Options)

/-- The parts of a sequence of characters separated by the character `c`. -/
def splitOnChar (c : Char) : List Char → List (List Char)
  | [] => [[]]
  | x :: xs =>
    match splitOnChar c xs with
    | [] => [[x]]
    | hd :: tl => if x = c then [] :: hd :: tl else (x :: hd) :: tl

/-- Modelled from the spec: cxxopts is outside the translated file; a name
declaration in its syntax (the one `CollapseName` produces, an optional short
name, a comma, the long name) registers each of its comma-separated parts as
a name of the option, and a name registered twice is the duplicate-option
error. -/
def declaredNames (declaration : String) : List String :=
  (splitOnChar ',' declaration.data).map String.mk

/-- The warning logged for a define without an equals sign. -/
def defineWarning (define : String) : LogMsg :=
  ⟨Level.warn, "Could not parse a define '" ++ define ++ "'"⟩

/-- The warnings logged by the loop over `defines`. -/
def defineWarnings (defines : List String) : List LogMsg :=
  (defines.filter (fun define => splitDefine define = none)).map defineWarning

/-! ## Concrete data used to evaluate the definitions -/

/-- A small instance of the collaborators: the Levenshtein distance, three
application options, two library options. -/
def sampleExt : Externals where
  textDistance := textDistance
  DefaultAppOptions := [("config", ""), ("input", ""), ("output", "")]
  LibOptionsNames := [("axis", "ui.axis"), ("up", "scene.up_direction")]
  getAllNames := ["scene.up_direction", "ui.axis"]
  getAllReaderOptionNames := []
  PrintHelp := [⟨Level.info, "help"⟩]
  PrintVersion := [⟨Level.info, "version"⟩]
  PrintRenderingBackendList := [⟨Level.info, "Rendering backends:"⟩]
  PrintPluginsScan := [⟨Level.info, "Found 0 plugins:"⟩]
  parsePlugins := fun s => [s]
  PrintReadersList := fun _ => [⟨Level.warn, "No registered reader found!"⟩]

/-- A parse result with nothing in it: what cxxopts returns for an `argv`
holding the program name only. -/
def emptyResult : ParseResult where
  count := fun _ => 0
  asString := fun _ => ""
  arguments := []
  unmatched := []
  defines := []
  resets := []

/-! ## Lemmas on the dictionary -/

theorem OptionsDict.find_assign (k v k' : String) (d : OptionsDict) :
    OptionsDict.find k' (OptionsDict.assign k v d) =
      if k' = k then some v else OptionsDict.find k' d := by
  induction d with
  | nil =>
    by_cases h : k' = k <;> simp [OptionsDict.assign, OptionsDict.find, h]
  | cons hd tl ih =>
    obtain ⟨a, b⟩ := hd
    by_cases h1 : k = a
    · subst h1
      by_cases h : k' = k <;> simp [OptionsDict.assign, OptionsDict.find, h]
    · by_cases h2 : StdString.less k a = true
      · by_cases h : k' = k <;> simp [OptionsDict.assign, OptionsDict.find, h, h1, h2]
      · by_cases h : k' = k
        · subst h
          simp [OptionsDict.assign, OptionsDict.find, h1, h2, ih]
        · by_cases h3 : k' = a
          · subst h3
            have h1' : ¬ k' = k := h
            simp [OptionsDict.assign, OptionsDict.find, h1, h2, h1']
          · simp [OptionsDict.assign, OptionsDict.find, h, h1, h2, h3, ih]

theorem find_foldl_assign (k : String) (ws : List (String × String)) (d : OptionsDict) :
    OptionsDict.find k (ws.foldl (fun acc w => OptionsDict.assign w.1 w.2 acc) d) =
      match lastWrite k ws with
      | some w => some w
      | none => OptionsDict.find k d := by
  induction ws generalizing d with
  | nil => simp [lastWrite]
  | cons hd tl ih =>
    obtain ⟨a, b⟩ := hd
    simp only [List.foldl_cons, ih, lastWrite]
    cases h : lastWrite k tl with
    | some w => simp
    | none =>
      simp only [OptionsDict.find_assign]
      by_cases hk : k = a <;> simp [hk]

theorem lastWrite_append (k : String) (xs ys : List (String × String)) :
    lastWrite k (xs ++ ys) =
      match lastWrite k ys with
      | some w => some w
      | none => lastWrite k xs := by
  induction xs with
  | nil => cases h : lastWrite k ys <;> simp [lastWrite, h]
  | cons hd tl ih =>
    obtain ⟨a, b⟩ := hd
    show (match lastWrite k (tl ++ ys) with
      | some w => some w
      | none => if k = a then some b else none) = _
    rw [ih]
    cases h : lastWrite k ys <;> simp [lastWrite]

theorem lastWrite_eq_none_iff (k : String) (ws : List (String × String)) :
    lastWrite k ws = none ↔ ∀ w ∈ ws, w.1 ≠ k := by
  induction ws with
  | nil => simp [lastWrite]
  | cons hd tl ih =>
    obtain ⟨a, b⟩ := hd
    simp only [lastWrite, List.mem_cons, forall_eq_or_imp]
    cases h : lastWrite k tl with
    | some w =>
      simp only [reduceCtorEq, false_iff, not_and]
      intro _ hall
      exact absurd (ih.mpr hall) (by simp [h])
    | none =>
      have := ih.mp h
      by_cases hk : k = a
      · simp [hk]
      · simp only [hk, if_false, true_iff]
        exact ⟨fun e => hk e.symm, this⟩

/-! ## Lemmas on the three loops of the dictionary -/

theorem foldl_addArgument (args : List KeyValue) (d : OptionsDict) :
    args.foldl addArgument d =
      ((args.filter (fun res => res.key ∉ CLIBooleans)).map (fun res => (res.key, res.value))).foldl
        (fun acc w => OptionsDict.assign w.1 w.2 acc) d := by
  induction args generalizing d with
  | nil => rfl
  | cons hd tl ih =>
    by_cases h : hd.key ∈ CLIBooleans
    · simp [List.filter_cons, addArgument, h, ih]
    · simp [List.filter_cons, addArgument, h, ih]

theorem foldl_addDefine (defines : List String) (log : List LogMsg) (d : OptionsDict) :
    defines.foldl addDefine (log, d) =
      (log ++ defineWarnings defines,
        (defines.filterMap splitDefine).foldl (fun acc w => OptionsDict.assign w.1 w.2 acc) d) := by
  induction defines generalizing log d with
  | nil => simp [defineWarnings]
  | cons hd tl ih =>
    cases h : StdString.find_first_of hd '=' with
    | none =>
      have hs : splitDefine hd = none := by simp [splitDefine, h]
      simp [List.foldl_cons, addDefine, h, ih, hs, defineWarnings, List.filter_cons,
        defineWarning]
    | some i =>
      have hs : splitDefine hd =
          some (StdString.substr hd 0 (some i), StdString.substr hd (i + 1) none) := by
        simp [splitDefine, h]
      simp [List.foldl_cons, addDefine, h, ih, hs, defineWarnings, List.filter_cons]

theorem foldl_addReset (resets : List String) (d : OptionsDict) :
    resets.foldl addReset d =
      (resets.map (fun reset => ("reset-" ++ reset, ""))).foldl
        (fun acc w => OptionsDict.assign w.1 w.2 acc) d := by
  induction resets generalizing d with
  | nil => rfl
  | cons hd tl ih => simp [addReset, ih]

theorem buildDict_eq (result : ParseResult) :
    buildDict result =
      (defineWarnings result.defines,
        (writes result).foldl (fun acc w => OptionsDict.assign w.1 w.2 acc) []) := by
  simp [buildDict, writes, foldl_addArgument, foldl_addDefine, foldl_addReset, List.foldl_append]

theorem find_buildDict (k : String) (result : ParseResult) :
    OptionsDict.find k (buildDict result).2 = lastWrite k (writes result) := by
  rw [buildDict_eq, find_foldl_assign]
  cases lastWrite k (writes result) <;> simp [OptionsDict.find]

/-! ## Lemmas on the control flow of the driver -/

theorem checkUnknown_eq (ext : Externals) (unmatched : List String) :
    checkUnknown ext unmatched =
      (unmatched.flatMap (reportUnknown ext), !unmatched.isEmpty) := by
  have key : ∀ (us : List String) (log : List LogMsg) (b : Bool),
      us.foldl (fun st u => (st.1 ++ reportUnknown ext u, true)) (log, b) =
        (log ++ us.flatMap (reportUnknown ext), b || !us.isEmpty) := by
    intro us
    induction us with
    | nil => intro log b; simp
    | cons hd tl ih => intro log b; simp [ih]
  simpa [checkUnknown] using key unmatched [] false

theorem ParseCLIOptions_of_noInformational (ext : Externals) (result : ParseResult)
    (h : noInformational result) :
    ParseCLIOptions ext (Except.ok result) =
      if result.unmatched = [] then
        (defineWarnings result.defines, Outcome.returned (buildDict result).2)
      else
        (result.unmatched.flatMap (reportUnknown ext), Outcome.F3DExFailure "unknown options") := by
  obtain ⟨h1, h2, h3, h4, h5⟩ := h
  simp only [ParseCLIOptions, h1, h2, h3, h4, h5, checkUnknown_eq]
  cases hu : result.unmatched with
  | nil => simp [buildDict_eq]
  | cons a t => simp

theorem ParseCLIOptions_returned (ext : Externals) (result : ParseResult) (log : List LogMsg)
    (dict : OptionsDict)
    (h : ParseCLIOptions ext (Except.ok result) = (log, Outcome.returned dict)) :
    noInformational result ∧ result.unmatched = [] ∧ dict = (buildDict result).2 ∧
      log = defineWarnings result.defines := by
  have n1 : result.count "help" = 0 := by
    by_contra hc
    have hp : result.count "help" > 0 := Nat.pos_of_ne_zero hc
    simp [ParseCLIOptions, hp] at h
  have n2 : result.count "version" = 0 := by
    by_contra hc
    have hp : result.count "version" > 0 := Nat.pos_of_ne_zero hc
    simp [ParseCLIOptions, n1, hp] at h
  have n3 : result.count "list-rendering-backends" = 0 := by
    by_contra hc
    have hp : result.count "list-rendering-backends" > 0 := Nat.pos_of_ne_zero hc
    simp [ParseCLIOptions, n1, n2, hp] at h
  have n4 : result.count "scan-plugins" = 0 := by
    by_contra hc
    have hp : result.count "scan-plugins" > 0 := Nat.pos_of_ne_zero hc
    simp [ParseCLIOptions, n1, n2, n3, hp] at h
  have n5 : result.count "list-readers" = 0 := by
    by_contra hc
    have hp : result.count "list-readers" > 0 := Nat.pos_of_ne_zero hc
    simp [ParseCLIOptions, n1, n2, n3, n4, hp] at h
  have hno : noInformational result := ⟨n1, n2, n3, n4, n5⟩
  rw [ParseCLIOptions_of_noInformational ext result hno] at h
  by_cases hu : result.unmatched = []
  · simp only [hu, if_true, Prod.mk.injEq, Outcome.returned.injEq] at h
    exact ⟨hno, hu, h.2.symm, h.1.symm⟩
  · simp [hu] at h

theorem reset_key_not_boolean (reset k : String) (hk : k ∈ CLIBooleans) :
    "reset-" ++ reset ≠ k := by
  intro h
  have hd := congrArg String.data h
  simp only [CLIBooleans, List.mem_cons, List.mem_singleton, List.not_mem_nil, or_false] at hk
  rcases hk with rfl | rfl | rfl | rfl | rfl | rfl | rfl <;> simp at hd

theorem reportUnknown_long (ext : Externals) (u : String)
    (h : StdString.substr u 0 (some 2) = "--") :
    reportUnknown ext u =
      [unknownOptionError u,
        ⟨Level.error, "Did you mean '--" ++
          ((GetClosestOption ext (unknownNameOf u) false).1 ++ valueSuffixOf u) ++ "'?"⟩] := by
  cases hf : StdString.find u '=' with
  | none =>
    have he : ∀ s : String, s ++ "" = s := fun s => by
      apply String.ext
      simp
    simp [reportUnknown, h, hf, unknownNameOf, valueSuffixOf, unknownOptionError, he]
  | some p =>
    simp [reportUnknown, h, hf, unknownNameOf, valueSuffixOf, unknownOptionError]

theorem reportUnknown_short (ext : Externals) (u : String)
    (h : StdString.substr u 0 (some 2) ≠ "--") :
    reportUnknown ext u = [unknownOptionError u] := by
  simp [reportUnknown, h, unknownOptionError]

/-! ## Lemmas on the members of `std::string` -/

theorem findChar_of_not_mem (c : Char) (xs : List Char) (h : c ∉ xs) :
    StdString.findChar c xs = none := by
  induction xs with
  | nil => rfl
  | cons x t ih =>
    have hx : ¬ x = c := fun e => h (by simp [e])
    have ht : c ∉ t := fun e => h (by simp [e])
    simp [StdString.findChar, hx, ih ht]

theorem findChar_append_cons (c : Char) (xs ys : List Char) (h : c ∉ xs) :
    StdString.findChar c (xs ++ c :: ys) = some xs.length := by
  induction xs with
  | nil => simp [StdString.findChar]
  | cons x t ih =>
    have hx : ¬ x = c := fun e => h (by simp [e])
    have ht : c ∉ t := fun e => h (by simp [e])
    simp [StdString.findChar, hx, ih ht]

theorem find_long_with_value (name value : String) (h : '=' ∉ name.data) :
    StdString.find ("--" ++ name ++ "=" ++ value) '=' = some (2 + name.length) := by
  have hmem : '=' ∉ ('-' :: '-' :: name.data) := by
    simp only [List.mem_cons, not_or]
    exact ⟨by decide, by decide, h⟩
  have := findChar_append_cons '=' ('-' :: '-' :: name.data) value.data hmem
  simp only [StdString.find, String.data_append]
  simp only [List.cons_append, List.nil_append, List.append_assoc] at this ⊢
  rw [this]
  simp only [List.length_cons, String.length, Option.some.injEq]
  omega

theorem find_long_without_value (name : String) (h : '=' ∉ name.data) :
    StdString.find ("--" ++ name) '=' = none := by
  have hmem : '=' ∉ ('-' :: '-' :: name.data) := by
    simp only [List.mem_cons, not_or]
    exact ⟨by decide, by decide, h⟩
  have := findChar_of_not_mem '=' ('-' :: '-' :: name.data) hmem
  simp only [StdString.find, String.data_append]
  simpa using this

theorem substr_two_dashes (rest : String) :
    StdString.substr ("--" ++ rest) 0 (some 2) = "--" := by
  apply String.ext
  have e1 : "--".data = ['-', '-'] := rfl
  simp [StdString.substr, String.data_append, e1]

theorem unknownNameOf_with_value (name value : String) (h : '=' ∉ name.data) :
    unknownNameOf ("--" ++ name ++ "=" ++ value) = name := by
  apply String.ext
  simp only [unknownNameOf, find_long_with_value name value h, StdString.substr,
    String.data_append]
  have e : 2 + name.length - 2 = name.data.length := by
    simp only [String.length]
    omega
  rw [e]
  simp

theorem valueSuffixOf_with_value (name value : String) (h : '=' ∉ name.data) :
    valueSuffixOf ("--" ++ name ++ "=" ++ value) = "=" ++ value := by
  apply String.ext
  simp only [valueSuffixOf, find_long_with_value name value h, StdString.substr,
    String.data_append]
  have e : 2 + name.length = ("--".data ++ name.data).length := by
    simp only [String.length, List.length_append]
    rfl
  rw [e, List.append_assoc, List.drop_left]

theorem unknownNameOf_without_value (name : String) (h : '=' ∉ name.data) :
    unknownNameOf ("--" ++ name) = name := by
  apply String.ext
  simp [unknownNameOf, find_long_without_value name h, StdString.substr, String.data_append]

theorem valueSuffixOf_without_value (name : String) (h : '=' ∉ name.data) :
    valueSuffixOf ("--" ++ name) = "" := by
  simp [valueSuffixOf, find_long_without_value name h]

/-! ## Lemmas on the defines -/

theorem splitDefine_key_value (k v : String) (hk : '=' ∉ k.data) :
    splitDefine (k ++ "=" ++ v) = some (k, v) := by
  have hf : StdString.find_first_of (k ++ "=" ++ v) '=' = some k.data.length := by
    have := findChar_append_cons '=' k.data v.data hk
    simpa [StdString.find_first_of, String.data_append] using this
  have h1 : StdString.substr (k ++ "=" ++ v) 0 (some k.data.length) = k := by
    apply String.ext
    simp [StdString.substr, String.data_append]
  have h2 : StdString.substr (k ++ "=" ++ v) (k.data.length + 1) none = v := by
    apply String.ext
    have e : k.data.length + 1 = (k.data ++ "=".data).length := by
      simp only [List.length_append]
      rfl
    simp only [StdString.substr, String.data_append]
    rw [e, List.drop_left]
  simp only [splitDefine, hf, h1, h2]

theorem splitDefine_eq_none_iff (e : String) :
    splitDefine e = none ↔ StdString.find_first_of e '=' = none := by
  cases h : StdString.find_first_of e '=' <;> simp [splitDefine, h]

theorem lastWrite_writes_define (result : ParseResult) (pre post : List String)
    (e k v : String)
    (hdef : result.defines = pre ++ e :: post) (he : splitDefine e = some (k, v))
    (hpost : ∀ e' ∈ post, ∀ w, splitDefine e' ≠ some (k, w))
    (hreset : ∀ r ∈ result.resets, "reset-" ++ r ≠ k) :
    lastWrite k (writes result) = some v := by
  have hR : lastWrite k (result.resets.map (fun reset => ("reset-" ++ reset, ""))) = none := by
    rw [lastWrite_eq_none_iff]
    intro w hw
    obtain ⟨r, hr, rfl⟩ := List.mem_map.mp hw
    exact hreset r hr
  have hP : lastWrite k (post.filterMap splitDefine) = none := by
    rw [lastWrite_eq_none_iff]
    intro w hw hwk
    obtain ⟨e', he', hs⟩ := List.mem_filterMap.mp hw
    exact hpost e' he' w.2 (by rw [hs, ← hwk])
  have hD : result.defines.filterMap splitDefine =
      pre.filterMap splitDefine ++ (k, v) :: post.filterMap splitDefine := by
    rw [hdef, List.filterMap_append, List.filterMap_cons, he]
  simp only [writes, hD, lastWrite_append, hR, lastWrite, hP, if_true]

theorem writes_without_malformed (result : ParseResult) (pre post : List String) (bad : String)
    (hdef : result.defines = pre ++ bad :: post)
    (hbad : StdString.find_first_of bad '=' = none) :
    writes result = writes { result with defines := pre ++ post } := by
  have hs : splitDefine bad = none := (splitDefine_eq_none_iff bad).mpr hbad
  simp only [writes, hdef, List.filterMap_append, List.filterMap_cons, hs]

theorem defineWarnings_with_malformed (pre post : List String) (bad : String)
    (hbad : StdString.find_first_of bad '=' = none) :
    defineWarnings (pre ++ bad :: post) =
      defineWarnings pre ++ defineWarning bad :: defineWarnings post := by
  have hs : splitDefine bad = none := (splitDefine_eq_none_iff bad).mpr hbad
  simp [defineWarnings, List.filter_append, List.filter_cons, hs]

theorem defineWarnings_append (pre post : List String) :
    defineWarnings (pre ++ post) = defineWarnings pre ++ defineWarnings post := by
  simp [defineWarnings, List.filter_append]

/-! ## Lemmas on the closest option -/

theorem toInt_of_lt (u : Nat) (h : u < 2147483647) : toInt u = (u : Int) := by
  have h1 : u % 4294967296 = u := Nat.mod_eq_of_lt (by omega)
  have h2 : u < 2147483648 := by omega
  simp [toInt, h1, h2]

theorem GetClosestOption_eq_foldl (ext : Externals) (option : String) (check : Bool) :
    GetClosestOption ext option check =
      (probeOrder ext check).foldl (fun r key => checkDistance ext key option r)
        ("", INT_MAX) := by
  cases check <;>
    simp [GetClosestOption, probeOrder, List.foldl_append, List.foldl_map]

theorem foldl_checkDistance (ext : Externals) (option : String) (l : List String)
    (init : String × Int) :
    (l.foldl (fun r key => checkDistance ext key option r) init).2 ≤ init.2 ∧
      (∀ k ∈ l, (l.foldl (fun r key => checkDistance ext key option r) init).2 ≤
        toInt (ext.textDistance k option)) ∧
      (l.foldl (fun r key => checkDistance ext key option r) init = init ∨
        ∃ pre post, l = pre ++
            (l.foldl (fun r key => checkDistance ext key option r) init).1 :: post ∧
          (l.foldl (fun r key => checkDistance ext key option r) init).2 =
            toInt (ext.textDistance
              (l.foldl (fun r key => checkDistance ext key option r) init).1 option) ∧
          (∀ k ∈ pre, (l.foldl (fun r key => checkDistance ext key option r) init).2 <
            toInt (ext.textDistance k option)) ∧
          (l.foldl (fun r key => checkDistance ext key option r) init).2 < init.2) := by
  induction l generalizing init with
  | nil => simp
  | cons a t ih =>
    simp only [List.foldl_cons]
    by_cases hlt : toInt (ext.textDistance a option) < init.2
    · have hc : checkDistance ext a option init = (a, toInt (ext.textDistance a option)) := by
        simp [checkDistance, hlt]
      rw [hc]
      obtain ⟨h1, h2, h3⟩ := ih (a, toInt (ext.textDistance a option))
      simp only at h1
      refine ⟨by omega, ?_, Or.inr ?_⟩
      · intro k hk
        rcases List.mem_cons.mp hk with rfl | hk
        · exact h1
        · exact h2 k hk
      · rcases h3 with h3 | ⟨pre, post, hl, hd, hpre, hlt2⟩
        · refine ⟨[], t, ?_, ?_, ?_, ?_⟩
          · rw [h3]; rfl
          · rw [h3]
          · simp
          · rw [h3]; exact hlt
        · refine ⟨a :: pre, post, ?_, hd, ?_, ?_⟩
          · rw [List.cons_append, ← hl]
          · intro k hk
            rcases List.mem_cons.mp hk with rfl | hk
            · exact hlt2
            · exact hpre k hk
          · simp only at hlt2
            omega
    · have hc : checkDistance ext a option init = init := by
        simp [checkDistance, hlt]
      rw [hc]
      obtain ⟨h1, h2, h3⟩ := ih init
      refine ⟨h1, ?_, ?_⟩
      · intro k hk
        rcases List.mem_cons.mp hk with rfl | hk
        · omega
        · exact h2 k hk
      · rcases h3 with h3 | ⟨pre, post, hl, hd, hpre, hlt2⟩
        · exact Or.inl h3
        · refine Or.inr ⟨a :: pre, post, ?_, hd, ?_, hlt2⟩
          · rw [List.cons_append, ← hl]
          · intro k hk
            rcases List.mem_cons.mp hk with rfl | hk
            · omega
            · exact hpre k hk

theorem mem_probeOrder (ext : Externals) (check : Bool) (k : String) :
    k ∈ probeOrder ext check ↔
      (k = "input" ∨ k ∈ CLIBooleans ∨ k ∈ ext.DefaultAppOptions.map Prod.fst ∨
        k ∈ ext.LibOptionsNames.map Prod.fst ∨
        (check = true ∧ (k ∈ ext.getAllNames ∨ k ∈ ext.getAllReaderOptionNames))) := by
  cases check with
  | false =>
    simp only [probeOrder, List.mem_cons, List.mem_append, Bool.false_eq_true, if_false,
      List.append_nil, false_and, or_false, or_assoc]
  | true =>
    simp only [probeOrder, List.mem_cons, List.mem_append, if_true, true_and, or_assoc]

theorem GetClosestOption_spec (ext : Externals) (option : String) (check : Bool)
    (hfit : ∀ k ∈ probeOrder ext check, ext.textDistance k option < 2147483647) :
    (∀ k ∈ probeOrder ext check,
        (GetClosestOption ext option check).2 ≤ (ext.textDistance k option : Int)) ∧
      ∃ pre post, probeOrder ext check = pre ++ (GetClosestOption ext option check).1 :: post ∧
        (GetClosestOption ext option check).2 =
          (ext.textDistance (GetClosestOption ext option check).1 option : Int) ∧
        ∀ k ∈ pre, (GetClosestOption ext option check).2 < (ext.textDistance k option : Int) := by
  obtain ⟨h1, h2, h3⟩ := foldl_checkDistance ext option (probeOrder ext check) ("", INT_MAX)
  rw [← GetClosestOption_eq_foldl] at h1 h2 h3
  have hin : "input" ∈ probeOrder ext check := by simp [probeOrder]
  have hle : ∀ k ∈ probeOrder ext check,
      (GetClosestOption ext option check).2 ≤ (ext.textDistance k option : Int) := by
    intro k hk
    have := h2 k hk
    rwa [toInt_of_lt _ (hfit k hk)] at this
  refine ⟨hle, ?_⟩
  rcases h3 with h3 | ⟨pre, post, hl, hd, hpre, -⟩
  · exfalso
    have h4 := hle "input" hin
    have h5 := hfit "input" hin
    rw [h3] at h4
    simp only [INT_MAX] at h4
    omega
  · have hmem : (GetClosestOption ext option check).1 ∈ probeOrder ext check := by
      rw [hl]; simp
    refine ⟨pre, post, hl, ?_, ?_⟩
    · rw [hd, toInt_of_lt _ (hfit _ hmem)]
    · intro k hk
      have hkm : k ∈ probeOrder ext check := by
        rw [hl]; simp [hk]
      have := hpre k hk
      rwa [toInt_of_lt _ (hfit k hkm)] at this

theorem levenshtein_self (xs : List Char) : levenshtein Levenshtein.defaultCost xs xs = 0 := by
  induction xs with
  | nil => simp
  | cons x t ih => simp [ih]

theorem levenshtein_nil_left (ys : List Char) :
    levenshtein Levenshtein.defaultCost [] ys = ys.length := by
  induction ys with
  | nil => simp
  | cons y t ih => simp [ih, Nat.add_comm]

theorem levenshtein_nil_right (xs : List Char) :
    levenshtein Levenshtein.defaultCost xs [] = xs.length := by
  induction xs with
  | nil => simp
  | cons x t ih => simp [ih, Nat.add_comm]

theorem eq_of_levenshtein_eq_zero (xs ys : List Char)
    (h : levenshtein Levenshtein.defaultCost xs ys = 0) : xs = ys := by
  induction xs generalizing ys with
  | nil =>
    rw [levenshtein_nil_left] at h
    exact (List.length_eq_zero.mp h).symm
  | cons x t ih =>
    cases ys with
    | nil =>
      rw [levenshtein_nil_right] at h
      simp at h
    | cons y u =>
      rw [levenshtein_cons_cons] at h
      simp only [Levenshtein.defaultCost_delete, Levenshtein.defaultCost_insert,
        Levenshtein.defaultCost_substitute] at h
      have h3 : (if x = y then 0 else 1) + levenshtein Levenshtein.defaultCost t u = 0 := by
        rcases Nat.le_total (1 + levenshtein Levenshtein.defaultCost t (y :: u))
          (min (1 + levenshtein Levenshtein.defaultCost (x :: t) u)
            ((if x = y then 0 else 1) + levenshtein Levenshtein.defaultCost t u)) with hle | hle
        · rw [min_eq_left hle] at h
          omega
        · rw [min_eq_right hle] at h
          rcases Nat.le_total (1 + levenshtein Levenshtein.defaultCost (x :: t) u)
            ((if x = y then 0 else 1) + levenshtein Levenshtein.defaultCost t u) with hle2 | hle2
          · rw [min_eq_left hle2] at h
            omega
          · rw [min_eq_right hle2] at h
            exact h
      by_cases hxy : x = y
      · subst hxy
        simp only [if_true, Nat.zero_add] at h3
        rw [ih u h3]
      · simp only [hxy, if_false] at h3
        omega

theorem textDistance_self (a : String) : textDistance a a = 0 :=
  levenshtein_self a.data

theorem eq_of_textDistance_eq_zero (a b : String) (h : textDistance a b = 0) : a = b :=
  String.ext (eq_of_levenshtein_eq_zero a.data b.data h)

/-! ## Lemmas on the order of the three loops -/

theorem lastWrite_mem (k v : String) (ws : List (String × String))
    (h : lastWrite k ws = some v) : (k, v) ∈ ws := by
  induction ws with
  | nil => simp [lastWrite] at h
  | cons hd tl ih =>
    obtain ⟨a, b⟩ := hd
    simp only [lastWrite] at h
    cases ht : lastWrite k tl with
    | some w =>
      rw [ht] at h
      simp only [Option.some.injEq] at h
      subst h
      exact List.mem_cons_of_mem _ (ih ht)
    | none =>
      rw [ht] at h
      by_cases hk : k = a
      · simp only [hk, if_true, Option.some.injEq] at h
        subst h
        subst hk
        exact List.mem_cons_self _ _
      · simp [hk] at h

theorem lastWrite_resets (k : String) (resets : List String) :
    lastWrite k (resets.map (fun reset => ("reset-" ++ reset, ""))) =
      if ∃ r ∈ resets, "reset-" ++ r = k then some "" else none := by
  by_cases h : ∃ r ∈ resets, "reset-" ++ r = k
  · rw [if_pos h]
    cases hl : lastWrite k (resets.map (fun reset => ("reset-" ++ reset, ""))) with
    | none =>
      exfalso
      obtain ⟨r, hr, hk⟩ := h
      exact (lastWrite_eq_none_iff k _).mp hl ("reset-" ++ r, "")
        (List.mem_map.mpr ⟨r, hr, rfl⟩) hk
    | some w =>
      obtain ⟨r, -, hr⟩ := List.mem_map.mp (lastWrite_mem k w _ hl)
      have : w = "" := (congrArg Prod.snd hr).symm
      rw [this]
  · rw [if_neg h, lastWrite_eq_none_iff]
    intro w hw hwk
    obtain ⟨r, hr, rfl⟩ := List.mem_map.mp hw
    exact h ⟨r, hr, hwk⟩

theorem lastWrite_arguments (k : String) (args : List KeyValue) :
    lastWrite k ((args.filter (fun res => res.key ∉ CLIBooleans)).map
        (fun res => (res.key, res.value))) =
      if k ∈ CLIBooleans then none
      else lastWrite k (args.map (fun res => (res.key, res.value))) := by
  induction args with
  | nil => by_cases hk : k ∈ CLIBooleans <;> simp [lastWrite, hk]
  | cons hd tl ih =>
    by_cases hb : hd.key ∈ CLIBooleans
    · have hf : (hd :: tl).filter (fun res => res.key ∉ CLIBooleans) =
          tl.filter (fun res => res.key ∉ CLIBooleans) := by
        simp [List.filter_cons, hb]
      rw [hf, ih]
      by_cases hk : k ∈ CLIBooleans
      · simp [hk]
      · have hne : ¬ k = hd.key := fun e => hk (e ▸ hb)
        simp only [hk, if_false, List.map_cons, lastWrite, hne]
        cases lastWrite k (tl.map (fun res => (res.key, res.value))) <;> rfl
    · have hf : (hd :: tl).filter (fun res => res.key ∉ CLIBooleans) =
          hd :: tl.filter (fun res => res.key ∉ CLIBooleans) := by
        simp [List.filter_cons, hb]
      rw [hf, List.map_cons, List.map_cons]
      simp only [lastWrite]
      rw [ih]
      by_cases hk : k ∈ CLIBooleans
      · have hne : ¬ k = hd.key := fun e => hb (e ▸ hk)
        simp [hk, hne]
      · simp [hk]

theorem lastWrite_writes (k : String) (result : ParseResult) :
    lastWrite k (writes result) =
      if ∃ r ∈ result.resets, "reset-" ++ r = k then some ""
      else
        match lastWrite k (result.defines.filterMap splitDefine) with
        | some v => some v
        | none =>
          if k ∈ CLIBooleans then none
          else lastWrite k (result.arguments.map (fun res => (res.key, res.value))) := by
  simp only [writes, lastWrite_append, lastWrite_resets, lastWrite_arguments]
  by_cases h : ∃ r ∈ result.resets, "reset-" ++ r = k
  · simp only [h, if_true]
  · simp only [h, if_false]

theorem ParseCLIOptions_returns (ext : Externals) (result : ParseResult)
    (hno : noInformational result) (hun : result.unmatched = []) :
    ParseCLIOptions ext (Except.ok result) =
      (defineWarnings result.defines, Outcome.returned (buildDict result).2) := by
  rw [ParseCLIOptions_of_noInformational ext result hno]
  simp [hun]

/-! ## The claims -/

/-- C1, refuted as stated: a define whose key is a name of the boolean
allow-list puts that name into the returned dictionary; for the defines
`["help=1"]` the dictionary returned maps `help` to `1`. -/
theorem CLIBooleans_key_in_dict_counterexample :
    ¬ ∀ (ext : Externals) (result : ParseResult) (log : List LogMsg) (dict : OptionsDict),
        ParseCLIOptions ext (Except.ok result) = (log, Outcome.returned dict) →
        ∀ k ∈ CLIBooleans, OptionsDict.find k dict = none := by
  intro h
  have h1 := h sampleExt { emptyResult with defines := ["help=1"] } [] [("help", "1")]
    (by decide) "help" (by decide)
  revert h1
  decide

/-- C1, amended: when `ParseCLIOptions` returns a dictionary, a name of the
boolean allow-list `CLIBooleans` is a key of it exactly when it is the key
(the text before the first equals sign) of some define; parsed options and
resets never put such a name into the dictionary. -/
theorem CLIBooleans_key_iff_define (ext : Externals) (result : ParseResult)
    (log : List LogMsg) (dict : OptionsDict) (k : String)
    (hret : ParseCLIOptions ext (Except.ok result) = (log, Outcome.returned dict))
    (hk : k ∈ CLIBooleans) :
    OptionsDict.find k dict ≠ none ↔
      ∃ e ∈ result.defines, ∃ v, splitDefine e = some (k, v) := by
  obtain ⟨-, -, hd, -⟩ := ParseCLIOptions_returned ext result log dict hret
  rw [hd, find_buildDict, Ne, lastWrite_eq_none_iff]
  constructor
  · intro hne
    simp only [not_forall] at hne
    obtain ⟨w, hw, hwk⟩ := hne
    have hwk2 : w.1 = k := not_not.mp hwk
    simp only [writes, List.mem_append, List.mem_map, List.mem_filter, List.mem_filterMap] at hw
    rcases hw with (⟨res, ⟨-, hres⟩, rfl⟩ | ⟨e, he, hsplit⟩) | ⟨r, -, rfl⟩
    · simp only at hwk2
      rw [hwk2] at hres
      simp [hk] at hres
    · exact ⟨e, he, w.2, by rw [hsplit, ← hwk2]⟩
    · exact absurd hwk2 (reset_key_not_boolean r k hk)
  · rintro ⟨e, he, v, hsplit⟩ hall
    have hmem : (k, v) ∈ writes result := by
      simp only [writes, List.mem_append, List.mem_filterMap]
      exact Or.inl (Or.inr ⟨e, he, hsplit⟩)
    exact hall (k, v) hmem rfl

/-- Witness of `CLIBooleans_key_iff_define`: with the defines `["help=1"]` the
key `help` is in the dictionary, and it comes from that define. -/
theorem CLIBooleans_key_iff_define_witness :
    OptionsDict.find "help" [("help", "1")] ≠ none ↔
      ∃ e ∈ ({ emptyResult with defines := ["help=1"] } : ParseResult).defines,
        ∃ v, splitDefine e = some ("help", v) :=
  CLIBooleans_key_iff_define sampleExt { emptyResult with defines := ["help=1"] } []
    [("help", "1")] "help" (by decide) (by decide)

/-- C2, refuted as stated: a command line that holds `--help`, `--version`
and an unrecognised option, and whose syntax is malformed (the parser throws
`Option 'output' is missing an argument`), does not end with
`F3DExNoProcess`: the exception of the parser is caught and the call ends with
`F3DExFailure`, although help and version were requested. -/
theorem help_on_malformed_command_line_counterexample :
    ¬ ∀ (ext : Externals) (commandLine : CommandLine),
        (commandLine.holds.count "help" > 0 ∨ commandLine.holds.count "version" > 0) →
        ∃ log what, ParseCLIOptions ext (lowLevelParse commandLine) =
          (log, Outcome.F3DExNoProcess what) := by
  intro h
  obtain ⟨log, what, h1⟩ := h sampleExt
    ⟨{ emptyResult with
        count := fun n => if n = "help" ∨ n = "version" then 1 else 0,
        unmatched := ["--confign=f3d.cfg"] },
      some "Option 'output' is missing an argument"⟩
    (Or.inl (by decide))
  have h2 : ParseCLIOptions sampleExt (lowLevelParse
      ⟨{ emptyResult with
          count := fun n => if n = "help" ∨ n = "version" then 1 else 0,
          unmatched := ["--confign=f3d.cfg"] },
        some "Option 'output' is missing an argument"⟩) =
      ([⟨Level.error,
          "Error parsing command line arguments: Option 'output' is missing an argument"⟩],
        Outcome.F3DExFailure "Could not parse command line arguments") := rfl
  rw [h2] at h1
  simp only [Prod.mk.injEq] at h1
  exact absurd h1.2 (by simp)

/-- C2, amended: for every command line that holds `--help` or `--version`,
whatever other recognised or unrecognised flags, defines and resets it
holds: when its syntax is well formed, so that the low-level parse returns,
`ParseCLIOptions` logs the help if help is present and the version otherwise,
and ends with `F3DExNoProcess` (`help requested`, else `version requested`);
no unknown-option error is logged and no `F3DExFailure` is raised. When its
syntax is malformed and the parser throws, the call logs the message of the
parser and ends with `F3DExFailure("Could not parse command line
arguments")`. Both facts hold of the driver itself: for every parse result
reporting help or version, and for every exception message. -/
theorem help_or_version_short_circuits (ext : Externals) (commandLine : CommandLine)
    (h : commandLine.holds.count "help" > 0 ∨ commandLine.holds.count "version" > 0) :
    (commandLine.malformed = none →
        ParseCLIOptions ext (lowLevelParse commandLine) =
          if commandLine.holds.count "help" > 0 then
            (ext.PrintHelp, Outcome.F3DExNoProcess "help requested")
          else (ext.PrintVersion, Outcome.F3DExNoProcess "version requested")) ∧
      (∀ what, commandLine.malformed = some what →
        ParseCLIOptions ext (lowLevelParse commandLine) =
          ([⟨Level.error, "Error parsing command line arguments: " ++ what⟩],
            Outcome.F3DExFailure "Could not parse command line arguments")) ∧
      (∀ result : ParseResult, (result.count "help" > 0 ∨ result.count "version" > 0) →
        ParseCLIOptions ext (Except.ok result) =
          if result.count "help" > 0 then
            (ext.PrintHelp, Outcome.F3DExNoProcess "help requested")
          else (ext.PrintVersion, Outcome.F3DExNoProcess "version requested")) ∧
      ∀ what, ParseCLIOptions ext (Except.error what) =
        ([⟨Level.error, "Error parsing command line arguments: " ++ what⟩],
          Outcome.F3DExFailure "Could not parse command line arguments") := by
  have hok : ∀ result : ParseResult,
      (result.count "help" > 0 ∨ result.count "version" > 0) →
      ParseCLIOptions ext (Except.ok result) =
        if result.count "help" > 0 then
          (ext.PrintHelp, Outcome.F3DExNoProcess "help requested")
        else (ext.PrintVersion, Outcome.F3DExNoProcess "version requested") := by
    intro result hr
    by_cases hh : result.count "help" > 0
    · simp [ParseCLIOptions, hh]
    · have hv : result.count "version" > 0 := hr.resolve_left hh
      simp [ParseCLIOptions, hh, hv]
  have herr : ∀ what, ParseCLIOptions ext (Except.error what) =
      ([⟨Level.error, "Error parsing command line arguments: " ++ what⟩],
        Outcome.F3DExFailure "Could not parse command line arguments") := fun _ => rfl
  refine ⟨?_, ?_, hok, herr⟩
  · intro hm
    have hl : lowLevelParse commandLine = Except.ok commandLine.holds := by
      simp [lowLevelParse, hm]
    rw [hl]
    exact hok commandLine.holds h
  · intro what hm
    have hl : lowLevelParse commandLine = Except.error what := by
      simp [lowLevelParse, hm]
    rw [hl]
    exact herr what

/-- Witness of `help_or_version_short_circuits`: a well-formed command line
with `--version`, `--help` and the unknown option `--confign=f3d.cfg` serves
the help; the same command line with a malformed syntax ends with the
failure. -/
theorem help_or_version_short_circuits_witness :
    ParseCLIOptions sampleExt (lowLevelParse
        ⟨{ emptyResult with
            count := fun n => if n = "help" ∨ n = "version" then 1 else 0,
            unmatched := ["--confign=f3d.cfg"] }, none⟩) =
        (sampleExt.PrintHelp, Outcome.F3DExNoProcess "help requested") ∧
      ParseCLIOptions sampleExt (lowLevelParse
        ⟨{ emptyResult with
            count := fun n => if n = "help" ∨ n = "version" then 1 else 0,
            unmatched := ["--confign=f3d.cfg"] },
          some "Option 'output' is missing an argument"⟩) =
        ([⟨Level.error,
            "Error parsing command line arguments: Option 'output' is missing an argument"⟩],
          Outcome.F3DExFailure "Could not parse command line arguments") :=
  ⟨(help_or_version_short_circuits sampleExt
      ⟨{ emptyResult with
          count := fun n => if n = "help" ∨ n = "version" then 1 else 0,
          unmatched := ["--confign=f3d.cfg"] }, none⟩ (Or.inl (by decide))).1 rfl,
    (help_or_version_short_circuits sampleExt
      ⟨{ emptyResult with
          count := fun n => if n = "help" ∨ n = "version" then 1 else 0,
          unmatched := ["--confign=f3d.cfg"] },
        some "Option 'output' is missing an argument"⟩ (Or.inl (by decide))).2.1
      "Option 'output' is missing an argument" rfl⟩

/-- C3, refuted as stated: the unrecognised token `-w` (an unknown short
option) gets its unknown-option error and no suggestion at all; the failure
is raised after that single message. -/
theorem short_unknown_option_counterexample :
    ParseCLIOptions sampleExt (Except.ok { emptyResult with unmatched := ["-w"] }) =
      ([⟨Level.error, "Unknown option '-w'"⟩], Outcome.F3DExFailure "unknown options") := by
  decide

/-- C3, amended: when no informational flag is present and the list of
unrecognised tokens is not empty, `ParseCLIOptions` logs, for every token of
the list in order, the error `Unknown option '<token>'`, followed for a token
that starts with two dashes by the error `Did you mean '--<closest name><value
suffix>'?` computed from that token (a token that does not start with two
dashes gets no suggestion); nothing else is logged, exactly one
`F3DExFailure("unknown options")` ends the call and no dictionary is
returned. -/
theorem unknown_options_all_reported (ext : Externals) (result : ParseResult)
    (hno : noInformational result) (hne : result.unmatched ≠ []) :
    ParseCLIOptions ext (Except.ok result) =
        (result.unmatched.flatMap (reportUnknown ext), Outcome.F3DExFailure "unknown options") ∧
      ∀ u : String,
        (StdString.substr u 0 (some 2) = "--" →
          reportUnknown ext u =
            [unknownOptionError u,
              ⟨Level.error, "Did you mean '--" ++
                ((GetClosestOption ext (unknownNameOf u) false).1 ++ valueSuffixOf u) ++ "'?"⟩]) ∧
        (StdString.substr u 0 (some 2) ≠ "--" → reportUnknown ext u = [unknownOptionError u]) := by
  refine ⟨?_, fun u => ⟨reportUnknown_long ext u, reportUnknown_short ext u⟩⟩
  rw [ParseCLIOptions_of_noInformational ext result hno]
  simp [hne]

/-- Witness of `unknown_options_all_reported`: the two unrecognised tokens
`--confign=f3d.cfg` and `-w`. -/
theorem unknown_options_all_reported_witness :
    ParseCLIOptions sampleExt
        (Except.ok { emptyResult with unmatched := ["--confign=f3d.cfg", "-w"] }) =
      (["--confign=f3d.cfg", "-w"].flatMap (reportUnknown sampleExt),
        Outcome.F3DExFailure "unknown options") :=
  (unknown_options_all_reported sampleExt
    { emptyResult with unmatched := ["--confign=f3d.cfg", "-w"] }
    ⟨rfl, rfl, rfl, rfl, rfl⟩ (by decide)).1

/-- C4: when every distance to a probed candidate fits in an `int` below
`INT_MAX`, `GetClosestOption(option, checkLibAndReaders)` returns a pair
`(name, d)` in which `name` is one of the probed candidates (`input`, the
names of `CLIBooleans`, the keys of `DefaultAppOptions`, the keys of
`LibOptionsNames` and, when `checkLibAndReaders` is true, the names of
`getAllNames` and of `getAllReaderOptionNames`), `d` is
`textDistance(name, option)`, and `d` is at most `textDistance(k, option)`
for every probed candidate `k`. -/
theorem GetClosestOption_minimal (ext : Externals) (option : String) (check : Bool)
    (hfit : ∀ k ∈ probeOrder ext check, ext.textDistance k option < 2147483647) :
    ((GetClosestOption ext option check).1 = "input" ∨
        (GetClosestOption ext option check).1 ∈ CLIBooleans ∨
        (GetClosestOption ext option check).1 ∈ ext.DefaultAppOptions.map Prod.fst ∨
        (GetClosestOption ext option check).1 ∈ ext.LibOptionsNames.map Prod.fst ∨
        (check = true ∧ ((GetClosestOption ext option check).1 ∈ ext.getAllNames ∨
          (GetClosestOption ext option check).1 ∈ ext.getAllReaderOptionNames))) ∧
      (GetClosestOption ext option check).2 =
        (ext.textDistance (GetClosestOption ext option check).1 option : Int) ∧
      ∀ k ∈ probeOrder ext check,
        (GetClosestOption ext option check).2 ≤ (ext.textDistance k option : Int) := by
  obtain ⟨hle, pre, post, hl, hd, -⟩ := GetClosestOption_spec ext option check hfit
  refine ⟨?_, hd, hle⟩
  have hmem : (GetClosestOption ext option check).1 ∈ probeOrder ext check := by
    rw [hl]; simp
  exact (mem_probeOrder ext check _).mp hmem

/-- Witness of `GetClosestOption_minimal`: the lookup of `hlp` with the
library and reader names probed too. -/
theorem GetClosestOption_minimal_witness :
    GetClosestOption sampleExt "hlp" true = ("help", 1) ∧
      (GetClosestOption sampleExt "hlp" true).2 =
        (sampleExt.textDistance (GetClosestOption sampleExt "hlp" true).1 "hlp" : Int) ∧
      ∀ k ∈ probeOrder sampleExt true,
        (GetClosestOption sampleExt "hlp" true).2 ≤ (sampleExt.textDistance k "hlp" : Int) :=
  ⟨by decide, (GetClosestOption_minimal sampleExt "hlp" true (by decide)).2⟩

/-- C5: the names are probed in the fixed order `input`, the boolean names in
their listed order, the application options in table order, the library
options in table order (then, when asked for, the library and reader option
names); when every distance fits in an `int` below `INT_MAX`, every candidate
that comes before the returned name in that order is strictly farther from
the searched option than the returned name, so among the candidates at the
minimal distance the earliest one is returned. -/
theorem GetClosestOption_earliest (ext : Externals) (option : String) (check : Bool)
    (hfit : ∀ k ∈ probeOrder ext check, ext.textDistance k option < 2147483647) :
    probeOrder ext check =
        "input" :: CLIBooleans ++ ext.DefaultAppOptions.map Prod.fst ++
          ext.LibOptionsNames.map Prod.fst ++
          (if check then ext.getAllNames ++ ext.getAllReaderOptionNames else []) ∧
      ∃ pre post, probeOrder ext check = pre ++ (GetClosestOption ext option check).1 :: post ∧
        (∀ k ∈ pre, (GetClosestOption ext option check).2 < (ext.textDistance k option : Int)) ∧
        ∀ k ∈ post, (GetClosestOption ext option check).2 ≤ (ext.textDistance k option : Int) := by
  obtain ⟨hle, pre, post, hl, -, hpre⟩ := GetClosestOption_spec ext option check hfit
  refine ⟨rfl, pre, post, hl, hpre, ?_⟩
  intro k hk
  exact hle k (by rw [hl]; simp [hk])

/-- Witness of `GetClosestOption_earliest`: `help` and `up` are both at the
minimal distance 4 from `xyzw`, and `help`, probed first, is returned. -/
theorem GetClosestOption_earliest_witness :
    GetClosestOption sampleExt "xyzw" false = ("help", 4) ∧
      sampleExt.textDistance "up" "xyzw" = 4 ∧
      ∃ pre post, probeOrder sampleExt false =
          pre ++ (GetClosestOption sampleExt "xyzw" false).1 :: post ∧
        (∀ k ∈ pre, (GetClosestOption sampleExt "xyzw" false).2 <
          (sampleExt.textDistance k "xyzw" : Int)) ∧
        ∀ k ∈ post, (GetClosestOption sampleExt "xyzw" false).2 ≤
          (sampleExt.textDistance k "xyzw" : Int) :=
  ⟨by decide, by decide, (GetClosestOption_earliest sampleExt "xyzw" false (by decide)).2⟩

/-- C6: with the edit distance for `textDistance`, for every known option
name `n` (`input`, a name of `CLIBooleans`, a key of `DefaultAppOptions` or a
key of `LibOptionsNames`) whose distances to the probed candidates fit in an
`int` below `INT_MAX`, `GetClosestOption(n)` returns the pair `(n, 0)`. -/
theorem GetClosestOption_known_name (ext : Externals) (n : String) (check : Bool)
    (htd : ext.textDistance = textDistance)
    (hn : n = "input" ∨ n ∈ CLIBooleans ∨ n ∈ ext.DefaultAppOptions.map Prod.fst ∨
      n ∈ ext.LibOptionsNames.map Prod.fst)
    (hfit : ∀ k ∈ probeOrder ext check, ext.textDistance k n < 2147483647) :
    GetClosestOption ext n check = (n, 0) := by
  have hmem : n ∈ probeOrder ext check := by
    rw [mem_probeOrder]
    rcases hn with h | h | h | h
    · exact Or.inl h
    · exact Or.inr (Or.inl h)
    · exact Or.inr (Or.inr (Or.inl h))
    · exact Or.inr (Or.inr (Or.inr (Or.inl h)))
  obtain ⟨hle, -, -, -, hd, -⟩ := GetClosestOption_spec ext n check hfit
  have h0 := hle n hmem
  rw [htd, textDistance_self] at h0
  rw [htd] at hd
  have hz : textDistance (GetClosestOption ext n check).1 n = 0 := by omega
  have hname : (GetClosestOption ext n check).1 = n := eq_of_textDistance_eq_zero _ _ hz
  have hdist : (GetClosestOption ext n check).2 = 0 := by omega
  exact Prod.ext hname hdist

/-- Witness of `GetClosestOption_known_name`: the library option `up`. -/
theorem GetClosestOption_known_name_witness :
    GetClosestOption sampleExt "up" true = ("up", 0) :=
  GetClosestOption_known_name sampleExt "up" true rfl
    (Or.inr (Or.inr (Or.inr (by decide)))) (by decide)

/-- C7: for an unrecognised token `--NAME=VALUE` in which `NAME` has no equals
sign, the name given to `GetClosestOption` is `NAME` and the suggestion logged
is the closest name followed by `=VALUE` unchanged; for a token `--NAME`
without an equals sign the name looked up is `NAME` and the suggestion is the
closest name alone. In particular `--confign=f3d.cfg` gives the suggestion
`--config=f3d.cfg` when `config` is the closest name to `confign`. -/
theorem suggestion_keeps_value_suffix (ext : Externals) (name value : String)
    (hname : '=' ∉ name.data) :
    reportUnknown ext ("--" ++ name ++ "=" ++ value) =
        [⟨Level.error, "Unknown option '" ++ ("--" ++ name ++ "=" ++ value) ++ "'"⟩,
          ⟨Level.error, "Did you mean '--" ++
            ((GetClosestOption ext name false).1 ++ ("=" ++ value)) ++ "'?"⟩] ∧
      reportUnknown ext ("--" ++ name) =
        [⟨Level.error, "Unknown option '" ++ ("--" ++ name) ++ "'"⟩,
          ⟨Level.error, "Did you mean '--" ++ (GetClosestOption ext name false).1 ++ "'?"⟩] ∧
      ((GetClosestOption ext "confign" false).1 = "config" →
        reportUnknown ext "--confign=f3d.cfg" =
          [⟨Level.error, "Unknown option '--confign=f3d.cfg'"⟩,
            ⟨Level.error, "Did you mean '--config=f3d.cfg'?"⟩]) := by
  have he : ∀ s : String, s ++ "" = s := fun s => by
    apply String.ext
    simp
  have hassoc : ∀ a b c : String, a ++ b ++ c = a ++ (b ++ c) := fun a b c => by
    apply String.ext
    simp
  have part1 : ∀ (nm vl : String), '=' ∉ nm.data →
      reportUnknown ext ("--" ++ nm ++ "=" ++ vl) =
        [⟨Level.error, "Unknown option '" ++ ("--" ++ nm ++ "=" ++ vl) ++ "'"⟩,
          ⟨Level.error, "Did you mean '--" ++
            ((GetClosestOption ext nm false).1 ++ ("=" ++ vl)) ++ "'?"⟩] := by
    intro nm vl hnm
    have hpre : StdString.substr ("--" ++ nm ++ "=" ++ vl) 0 (some 2) = "--" := by
      rw [hassoc, hassoc]
      exact substr_two_dashes _
    rw [reportUnknown_long ext _ hpre, unknownNameOf_with_value nm vl hnm,
      valueSuffixOf_with_value nm vl hnm]
    rfl
  refine ⟨part1 name value hname, ?_, ?_⟩
  · rw [reportUnknown_long ext _ (substr_two_dashes name),
      unknownNameOf_without_value name hname, valueSuffixOf_without_value name hname, he]
    rfl
  · intro hc
    have h := part1 "confign" "f3d.cfg" (by decide)
    rw [hc] at h
    exact h

/-- Witness of `suggestion_keeps_value_suffix`: the token `--confign=f3d.cfg`
with a table in which `config` is the closest name. -/
theorem suggestion_keeps_value_suffix_witness :
    (GetClosestOption sampleExt "confign" false).1 = "config" ∧
      reportUnknown sampleExt "--confign=f3d.cfg" =
        [⟨Level.error, "Unknown option '--confign=f3d.cfg'"⟩,
          ⟨Level.error, "Did you mean '--config=f3d.cfg'?"⟩] :=
  ⟨by decide,
    (suggestion_keeps_value_suffix sampleExt "confign" "f3d.cfg" (by decide)).2.2 (by decide)⟩

/-- C8: when no informational flag and no unrecognised token is present, a
define `KEY=VALUE` whose `KEY` has no equals sign is split at its first equals
sign into `KEY` and `VALUE` (the whole text after that sign), and the
returned dictionary maps `KEY` to `VALUE`, provided no later define has the
key `KEY` and no reset writes `KEY`. -/
theorem define_split_on_first_equals (ext : Externals) (result : ParseResult)
    (pre post : List String) (k v : String)
    (hno : noInformational result) (hun : result.unmatched = [])
    (hdef : result.defines = pre ++ (k ++ "=" ++ v) :: post)
    (hk : '=' ∉ k.data)
    (hpost : ∀ e ∈ post, ∀ w, splitDefine e ≠ some (k, w))
    (hreset : ∀ r ∈ result.resets, "reset-" ++ r ≠ k) :
    splitDefine (k ++ "=" ++ v) = some (k, v) ∧
      ∃ log dict, ParseCLIOptions ext (Except.ok result) = (log, Outcome.returned dict) ∧
        OptionsDict.find k dict = some v := by
  have hs := splitDefine_key_value k v hk
  refine ⟨hs, defineWarnings result.defines, (buildDict result).2, ?_, ?_⟩
  · rw [ParseCLIOptions_of_noInformational ext result hno]
    simp [hun]
  · rw [find_buildDict]
    exact lastWrite_writes_define result pre post _ k v hdef hs hpost hreset

/-- Witness of `define_split_on_first_equals`: the defines `foo.bar=baz` and
`a=b=c` give `foo.bar -> baz` and `a -> b=c`. -/
theorem define_split_on_first_equals_witness :
    (splitDefine ("a" ++ "=" ++ "b=c") = some ("a", "b=c") ∧
      ∃ log dict, ParseCLIOptions sampleExt
          (Except.ok { emptyResult with defines := ["foo.bar=baz", "a=b=c"] }) =
          (log, Outcome.returned dict) ∧
        OptionsDict.find "a" dict = some "b=c") ∧
      ParseCLIOptions sampleExt
          (Except.ok { emptyResult with defines := ["foo.bar=baz", "a=b=c"] }) =
        ([], Outcome.returned [("a", "b=c"), ("foo.bar", "baz")]) :=
  ⟨define_split_on_first_equals sampleExt
      { emptyResult with defines := ["foo.bar=baz", "a=b=c"] } ["foo.bar=baz"] [] "a" "b=c"
      ⟨rfl, rfl, rfl, rfl, rfl⟩ rfl (by decide) (by decide) (by simp) (by simp [emptyResult]),
    by decide⟩

/-- C9: a define without an equals sign is not fatal. The call ends the same
way with the entry as with the entry removed from the list of defines; when
no informational flag and no unrecognised token is present, a dictionary is
returned, it is the dictionary of the run without the entry, and the log is
the log of that run with the one warning `Could not parse a define '<entry>'`
put at the place of the entry (the defines before and after it are
processed as usual). -/
theorem malformed_define_is_skipped (ext : Externals) (result : ParseResult)
    (pre post : List String) (bad : String)
    (hdef : result.defines = pre ++ bad :: post)
    (hbad : StdString.find_first_of bad '=' = none) :
    (ParseCLIOptions ext (Except.ok result)).2 =
        (ParseCLIOptions ext (Except.ok { result with defines := pre ++ post })).2 ∧
      (noInformational result → result.unmatched = [] →
        ParseCLIOptions ext (Except.ok result) =
            (defineWarnings pre ++ defineWarning bad :: defineWarnings post,
              Outcome.returned (buildDict { result with defines := pre ++ post }).2) ∧
          ParseCLIOptions ext (Except.ok { result with defines := pre ++ post }) =
            (defineWarnings pre ++ defineWarnings post,
              Outcome.returned (buildDict { result with defines := pre ++ post }).2)) := by
  have hw := writes_without_malformed result pre post bad hdef hbad
  have hb : (buildDict result).2 = (buildDict { result with defines := pre ++ post }).2 := by
    rw [buildDict_eq, buildDict_eq, hw]
  constructor
  · simp only [ParseCLIOptions, checkUnknown_eq, hb]
    repeat' split
    all_goals rfl
  · intro hno hun
    have hno2 : noInformational { result with defines := pre ++ post } := hno
    rw [ParseCLIOptions_of_noInformational ext result hno,
      ParseCLIOptions_of_noInformational ext _ hno2]
    simp only [hun, if_true, hb]
    rw [hdef, defineWarnings_with_malformed pre post bad hbad, defineWarnings_append]
    exact ⟨rfl, rfl⟩

/-- Witness of `malformed_define_is_skipped`: the defines `a=b`, `zz`, `c=d`
give the dictionary of the defines `a=b`, `c=d` and one warning for `zz`. -/
theorem malformed_define_is_skipped_witness :
    ParseCLIOptions sampleExt (Except.ok { emptyResult with defines := ["a=b", "zz", "c=d"] }) =
        ([⟨Level.warn, "Could not parse a define 'zz'"⟩],
          Outcome.returned [("a", "b"), ("c", "d")]) ∧
      ParseCLIOptions sampleExt (Except.ok { emptyResult with defines := ["a=b", "c=d"] }) =
        ([], Outcome.returned [("a", "b"), ("c", "d")]) ∧
      (ParseCLIOptions sampleExt
          (Except.ok { emptyResult with defines := ["a=b", "zz", "c=d"] })).2 =
        (ParseCLIOptions sampleExt
          (Except.ok { ({ emptyResult with defines := ["a=b", "zz", "c=d"] } : ParseResult) with
            defines := ["a=b"] ++ ["c=d"] })).2 ∧
      ParseCLIOptions sampleExt (Except.ok { emptyResult with defines := ["a=b", "zz", "c=d"] }) =
        (defineWarnings ["a=b"] ++ defineWarning "zz" :: defineWarnings ["c=d"],
          Outcome.returned (buildDict
            { ({ emptyResult with defines := ["a=b", "zz", "c=d"] } : ParseResult) with
              defines := ["a=b"] ++ ["c=d"] }).2) :=
  ⟨by decide, by decide,
    (malformed_define_is_skipped sampleExt { emptyResult with defines := ["a=b", "zz", "c=d"] }
      ["a=b"] ["c=d"] "zz" rfl (by decide)).1,
    ((malformed_define_is_skipped sampleExt { emptyResult with defines := ["a=b", "zz", "c=d"] }
      ["a=b"] ["c=d"] "zz" rfl (by decide)).2 ⟨rfl, rfl, rfl, rfl, rfl⟩ rfl).1⟩

/-- C10, refuted as stated: with the defines `reset-x=1` and `reset-x=2` and
the reset `x`, the returned dictionary maps `reset-x` to the empty text and
not to `2`, the value of the last define of that key. -/
theorem last_define_counterexample :
    ¬ ∀ (ext : Externals) (result : ParseResult) (pre post : List String) (e k v : String),
        noInformational result → result.unmatched = [] →
        result.defines = pre ++ e :: post → splitDefine e = some (k, v) →
        (∀ e' ∈ post, ∀ w, splitDefine e' ≠ some (k, w)) →
        ∃ log dict, ParseCLIOptions ext (Except.ok result) = (log, Outcome.returned dict) ∧
          OptionsDict.find k dict = some v := by
  intro h
  obtain ⟨log, dict, h1, h2⟩ := h sampleExt
    { emptyResult with defines := ["reset-x=1", "reset-x=2"], resets := ["x"] }
    ["reset-x=1"] [] "reset-x=2" "reset-x" "2" ⟨rfl, rfl, rfl, rfl, rfl⟩ rfl rfl (by decide)
    (by simp)
  have h3 : ParseCLIOptions sampleExt (Except.ok
      { emptyResult with defines := ["reset-x=1", "reset-x=2"], resets := ["x"] }) =
      ([], Outcome.returned [("reset-x", "")]) := by decide
  rw [h3] at h1
  simp only [Prod.mk.injEq, Outcome.returned.injEq] at h1
  rw [← h1.2] at h2
  revert h2
  decide

/-- C10, amended: when no informational flag and no unrecognised token is
present, for every key `k` of a well-formed define, the returned dictionary
maps `k` to the value of the last well-formed define of key `k` in
command-line order, whatever the defines before it are, provided no reset
entry `r` has `reset-` followed by `r` equal to `k`. -/
theorem last_define_wins (ext : Externals) (result : ParseResult)
    (pre post : List String) (e k v : String)
    (hno : noInformational result) (hun : result.unmatched = [])
    (hdef : result.defines = pre ++ e :: post) (he : splitDefine e = some (k, v))
    (hpost : ∀ e' ∈ post, ∀ w, splitDefine e' ≠ some (k, w))
    (hreset : ∀ r ∈ result.resets, "reset-" ++ r ≠ k) :
    ∃ log dict, ParseCLIOptions ext (Except.ok result) = (log, Outcome.returned dict) ∧
      OptionsDict.find k dict = some v := by
  refine ⟨defineWarnings result.defines, (buildDict result).2, ?_, ?_⟩
  · rw [ParseCLIOptions_of_noInformational ext result hno]
    simp [hun]
  · rw [find_buildDict]
    exact lastWrite_writes_define result pre post e k v hdef he hpost hreset

/-- Witness of `last_define_wins`: of the defines `a=1`, `b=2`, `a=3`, `c=4`
the last one of key `a` gives the value. -/
theorem last_define_wins_witness :
    (∃ log dict, ParseCLIOptions sampleExt
        (Except.ok { emptyResult with defines := ["a=1", "b=2", "a=3", "c=4"] }) =
        (log, Outcome.returned dict) ∧ OptionsDict.find "a" dict = some "3") ∧
      ParseCLIOptions sampleExt
          (Except.ok { emptyResult with defines := ["a=1", "b=2", "a=3", "c=4"] }) =
        ([], Outcome.returned [("a", "3"), ("b", "2"), ("c", "4")]) :=
  ⟨last_define_wins sampleExt { emptyResult with defines := ["a=1", "b=2", "a=3", "c=4"] }
      ["a=1", "b=2"] ["c=4"] "a=3" "a" "3" ⟨rfl, rfl, rfl, rfl, rfl⟩ rfl rfl (by decide)
      (by
        intro e' he' w h
        rw [List.mem_singleton] at he'
        subst he'
        have hs : splitDefine "c=4" = some ("c", "4") := by decide
        rw [hs] at h
        have hk : "c" = "a" := congrArg Prod.fst (Option.some.inj h)
        exact absurd hk (by decide))
      (by simp [emptyResult]),
    by decide⟩

/-- C11, refuted as stated: with the define `reset-x=v` and the resets
`reset-x` and `x`, both `--define r=v` and `--reset r` are present for
`r = reset-x`, yet the returned dictionary maps `reset-x` to the empty text
(written by the reset `x`) and not to `v`. -/
theorem reset_and_define_counterexample :
    ¬ ∀ (ext : Externals) (result : ParseResult) (r v : String),
        noInformational result → result.unmatched = [] →
        r ∈ result.resets → (r ++ "=" ++ v) ∈ result.defines →
        ∃ log dict, ParseCLIOptions ext (Except.ok result) = (log, Outcome.returned dict) ∧
          OptionsDict.find r dict = some v ∧
          OptionsDict.find ("reset-" ++ r) dict = some "" := by
  intro h
  obtain ⟨log, dict, h1, h2, -⟩ := h sampleExt
    { emptyResult with defines := ["reset-x=v"], resets := ["reset-x", "x"] }
    "reset-x" "v" ⟨rfl, rfl, rfl, rfl, rfl⟩ rfl (by decide) (by decide)
  have h3 : ParseCLIOptions sampleExt (Except.ok
      { emptyResult with defines := ["reset-x=v"], resets := ["reset-x", "x"] }) =
      ([], Outcome.returned [("reset-reset-x", ""), ("reset-x", "")]) := by decide
  rw [h3] at h1
  simp only [Prod.mk.injEq, Outcome.returned.injEq] at h1
  rw [← h1.2] at h2
  revert h2
  decide

/-- C11, amended: when no informational flag and no unrecognised token is
present, for every reset entry `r` the returned dictionary maps `reset-`
followed by `r` to the empty text, whatever the defines are; and when a define
of key `r` and value `v` is present too, the dictionary also maps `r` to `v`,
provided that define is the last one of key `r` and no reset entry `x` has
`reset-` followed by `x` equal to `r`. -/
theorem reset_entry_written (ext : Externals) (result : ParseResult) (r : String)
    (hno : noInformational result) (hun : result.unmatched = [])
    (hr : r ∈ result.resets) :
    ∃ log dict, ParseCLIOptions ext (Except.ok result) = (log, Outcome.returned dict) ∧
      OptionsDict.find ("reset-" ++ r) dict = some "" ∧
      ∀ (pre post : List String) (e v : String),
        result.defines = pre ++ e :: post → splitDefine e = some (r, v) →
        (∀ e' ∈ post, ∀ w, splitDefine e' ≠ some (r, w)) →
        (∀ x ∈ result.resets, "reset-" ++ x ≠ r) →
        OptionsDict.find r dict = some v := by
  refine ⟨defineWarnings result.defines, (buildDict result).2,
    ParseCLIOptions_returns ext result hno hun, ?_, ?_⟩
  · rw [find_buildDict, lastWrite_writes]
    have hex : ∃ x ∈ result.resets, "reset-" ++ x = "reset-" ++ r := ⟨r, hr, rfl⟩
    rw [if_pos hex]
  · intro pre post e v hdef he hpost hreset
    rw [find_buildDict]
    exact lastWrite_writes_define result pre post e r v hdef he hpost hreset

/-- Witness of `reset_entry_written`: the define `foo.bar=baz` together with
the reset `foo.bar`. -/
theorem reset_entry_written_witness :
    (∃ log dict, ParseCLIOptions sampleExt
        (Except.ok { emptyResult with defines := ["foo.bar=baz"], resets := ["foo.bar"] }) =
        (log, Outcome.returned dict) ∧
      OptionsDict.find ("reset-" ++ "foo.bar") dict = some "" ∧
      ∀ (pre post : List String) (e v : String),
        ({ emptyResult with defines := ["foo.bar=baz"], resets := ["foo.bar"] } :
          ParseResult).defines = pre ++ e :: post →
        splitDefine e = some ("foo.bar", v) →
        (∀ e' ∈ post, ∀ w, splitDefine e' ≠ some ("foo.bar", w)) →
        (∀ x ∈ ({ emptyResult with defines := ["foo.bar=baz"], resets := ["foo.bar"] } :
          ParseResult).resets, "reset-" ++ x ≠ "foo.bar") →
        OptionsDict.find "foo.bar" dict = some v) ∧
      ParseCLIOptions sampleExt
          (Except.ok { emptyResult with defines := ["foo.bar=baz"], resets := ["foo.bar"] }) =
        ([], Outcome.returned [("foo.bar", "baz"), ("reset-foo.bar", "")]) :=
  ⟨reset_entry_written sampleExt
      { emptyResult with defines := ["foo.bar=baz"], resets := ["foo.bar"] } "foo.bar"
      ⟨rfl, rfl, rfl, rfl, rfl⟩ rfl (by decide),
    by decide⟩

/-- C12: when no informational flag and no unrecognised token is present, the
value of every key `k` in the returned dictionary is decided by the order of
the three loops: it is the empty text if `k` is `reset-` followed by some
reset entry; otherwise the value of the last well-formed define of key `k`,
if there is one; otherwise the value of the last parsed option of key `k` when
`k` is not in `CLIBooleans`; otherwise `k` is absent. The order of the
options, defines and resets among each other on the command line plays no
part. -/
theorem dictionary_three_passes (ext : Externals) (result : ParseResult) (k : String)
    (hno : noInformational result) (hun : result.unmatched = []) :
    ∃ log dict, ParseCLIOptions ext (Except.ok result) = (log, Outcome.returned dict) ∧
      OptionsDict.find k dict =
        if ∃ r ∈ result.resets, "reset-" ++ r = k then some ""
        else
          match lastWrite k (result.defines.filterMap splitDefine) with
          | some v => some v
          | none =>
            if k ∈ CLIBooleans then none
            else lastWrite k (result.arguments.map (fun res => (res.key, res.value))) := by
  refine ⟨defineWarnings result.defines, (buildDict result).2,
    ParseCLIOptions_returns ext result hno hun, ?_⟩
  rw [find_buildDict, lastWrite_writes]

/-- Witness of `dictionary_three_passes`: the define `up=v` overrides the
option `--up=w`, the reset `x` overrides the define `reset-x=v`, and the
parsed boolean `help` is absent. -/
theorem dictionary_three_passes_witness :
    (∃ log dict, ParseCLIOptions sampleExt
        (Except.ok { emptyResult with
          arguments := [⟨"define", "up=v"⟩, ⟨"up", "w"⟩],
          defines := ["up=v", "reset-x=v"], resets := ["x"] }) =
        (log, Outcome.returned dict) ∧
      OptionsDict.find "up" dict =
        if ∃ r ∈ ({ emptyResult with
            arguments := [⟨"define", "up=v"⟩, ⟨"up", "w"⟩],
            defines := ["up=v", "reset-x=v"], resets := ["x"] } : ParseResult).resets,
            "reset-" ++ r = "up" then some ""
        else
          match lastWrite "up" (({ emptyResult with
            arguments := [⟨"define", "up=v"⟩, ⟨"up", "w"⟩],
            defines := ["up=v", "reset-x=v"], resets := ["x"] } :
              ParseResult).defines.filterMap splitDefine) with
          | some v => some v
          | none =>
            if "up" ∈ CLIBooleans then none
            else lastWrite "up" (({ emptyResult with
              arguments := [⟨"define", "up=v"⟩, ⟨"up", "w"⟩],
              defines := ["up=v", "reset-x=v"], resets := ["x"] } :
                ParseResult).arguments.map (fun res => (res.key, res.value)))) ∧
      ParseCLIOptions sampleExt
          (Except.ok { emptyResult with
            arguments := [⟨"define", "up=v"⟩, ⟨"up", "w"⟩],
            defines := ["up=v", "reset-x=v"], resets := ["x"] }) =
        ([], Outcome.returned [("reset-x", ""), ("up", "v")]) :=
  ⟨dictionary_three_passes sampleExt
      { emptyResult with
        arguments := [⟨"define", "up=v"⟩, ⟨"up", "w"⟩],
        defines := ["up=v", "reset-x=v"], resets := ["x"] } "up"
      ⟨rfl, rfl, rfl, rfl, rfl⟩ rfl,
    by decide⟩

/-- C13: in every build configuration, the long names of the catalog options
with an empty `ValueHelper` (those registered as value-less flags) are exactly
the names of `CLIBooleans` other than `define` and `reset`; so a parsed
catalog option is left out of the dictionary when it is a value-less flag and
is written into it when it has a `ValueHelper`. -/
theorem boolean_flags_agree (F3D_MODULE_RAYTRACING F3D_MODULE_DMON : Bool) :
    (∀ name : String,
        name ∈ declaredFlags (CLIOptions F3D_MODULE_RAYTRACING F3D_MODULE_DMON) ↔
          (name ∈ CLIBooleans ∧ name ≠ "define" ∧ name ≠ "reset")) ∧
      ∀ cliOption ∈ catalogOptions (CLIOptions F3D_MODULE_RAYTRACING F3D_MODULE_DMON),
        ∀ (dict : OptionsDict) (value : String),
          addArgument dict ⟨cliOption.LongName, value⟩ =
            if cliOption.ValueHelper = "" then dict
            else OptionsDict.assign cliOption.LongName value dict := by
  have hflags : ∀ r d : Bool, declaredFlags (CLIOptions r d) =
      ["help", "version", "list-readers", "list-rendering-backends", "scan-plugins"] := by
    decide
  have hiff : ∀ r d : Bool, ∀ o ∈ catalogOptions (CLIOptions r d),
      (o.ValueHelper = "" ↔ o.LongName ∈ CLIBooleans) := by
    decide
  constructor
  · intro name
    rw [hflags]
    simp only [CLIBooleans, List.mem_cons, List.mem_singleton, List.not_mem_nil, or_false]
    constructor
    · rintro (rfl | rfl | rfl | rfl | rfl) <;> decide
    · rintro ⟨h | h | h | h | h | h | h, hd, hr⟩
      · exact Or.inr (Or.inl h)
      · exact Or.inl h
      · exact Or.inr (Or.inr (Or.inl h))
      · exact Or.inr (Or.inr (Or.inr (Or.inr h)))
      · exact Or.inr (Or.inr (Or.inr (Or.inl h)))
      · exact absurd h hd
      · exact absurd h hr
  · intro o ho dict value
    have h := hiff F3D_MODULE_RAYTRACING F3D_MODULE_DMON o ho
    by_cases hv : o.ValueHelper = ""
    · have hm : o.LongName ∈ CLIBooleans := h.mp hv
      simp [addArgument, hv, hm]
    · have hm : o.LongName ∉ CLIBooleans := fun hc => hv (h.mpr hc)
      simp [addArgument, hv, hm]

/-- C14: in every build configuration, the long names of the catalog are
pairwise distinct and differ from `input`, `define` and `reset`; the non-empty
short names are single characters, pairwise distinct and different from `D`
and `R`; for every option of the catalog the declaration made by
`CollapseName` holds its short name, if any, and its long name; and no name
is declared twice over the whole registration loop. -/
theorem catalog_names_never_collide (F3D_MODULE_RAYTRACING F3D_MODULE_DMON : Bool) :
    ("input" :: "define" :: "reset" ::
        (catalogOptions (CLIOptions F3D_MODULE_RAYTRACING F3D_MODULE_DMON)).map
          (fun cliOption => cliOption.LongName)).Nodup ∧
      ("D" :: "R" ::
        ((catalogOptions (CLIOptions F3D_MODULE_RAYTRACING F3D_MODULE_DMON)).map
          (fun cliOption => cliOption.ShortName)).filter (fun name => name ≠ "")).Nodup ∧
      (∀ cliOption ∈ catalogOptions (CLIOptions F3D_MODULE_RAYTRACING F3D_MODULE_DMON),
        cliOption.ShortName = "" ∨ cliOption.ShortName.length = 1) ∧
      (∀ cliOption ∈ catalogOptions (CLIOptions F3D_MODULE_RAYTRACING F3D_MODULE_DMON),
        declaredNames (CollapseName cliOption.LongName cliOption.ShortName) =
          if cliOption.ShortName = "" then [cliOption.LongName]
          else [cliOption.ShortName, cliOption.LongName]) ∧
      ((declarations (CLIOptions F3D_MODULE_RAYTRACING F3D_MODULE_DMON)).flatMap
        declaredNames).Nodup := by
  refine ⟨?_, ?_, ?_, ?_, ?_⟩
  · revert F3D_MODULE_RAYTRACING F3D_MODULE_DMON
    decide
  · revert F3D_MODULE_RAYTRACING F3D_MODULE_DMON
    decide
  · revert F3D_MODULE_RAYTRACING F3D_MODULE_DMON
    decide
  · revert F3D_MODULE_RAYTRACING F3D_MODULE_DMON
    decide
  · revert F3D_MODULE_RAYTRACING F3D_MODULE_DMON
    decide

/-- C15: once cxxopts has returned, exactly one informational request is
served, chosen by the fixed precedence help, version,
list-rendering-backends, scan-plugins, list-readers: the call logs the output
of that printer only and ends with `F3DExNoProcess`, the reason being `help
requested` if help is present, else `version requested`, else `rendering
backend list requested`, else `scan plugins requested`, else `reader list
requested`; and if none of the five is present no `F3DExNoProcess` is
raised. The code reads only the counts of the flags, so their order on the
command line plays no part. -/
theorem informational_precedence (ext : Externals) (result : ParseResult) :
    (result.count "help" > 0 →
        ParseCLIOptions ext (Except.ok result) =
          (ext.PrintHelp, Outcome.F3DExNoProcess "help requested")) ∧
      (result.count "help" = 0 → result.count "version" > 0 →
        ParseCLIOptions ext (Except.ok result) =
          (ext.PrintVersion, Outcome.F3DExNoProcess "version requested")) ∧
      (result.count "help" = 0 → result.count "version" = 0 →
        result.count "list-rendering-backends" > 0 →
        ParseCLIOptions ext (Except.ok result) =
          (ext.PrintRenderingBackendList,
            Outcome.F3DExNoProcess "rendering backend list requested")) ∧
      (result.count "help" = 0 → result.count "version" = 0 →
        result.count "list-rendering-backends" = 0 → result.count "scan-plugins" > 0 →
        ParseCLIOptions ext (Except.ok result) =
          (ext.PrintPluginsScan, Outcome.F3DExNoProcess "scan plugins requested")) ∧
      (result.count "help" = 0 → result.count "version" = 0 →
        result.count "list-rendering-backends" = 0 → result.count "scan-plugins" = 0 →
        result.count "list-readers" > 0 →
        ParseCLIOptions ext (Except.ok result) =
          (ext.PrintReadersList
              (if result.count "load-plugins" > 0 then
                ext.parsePlugins (result.asString "load-plugins")
              else []),
            Outcome.F3DExNoProcess "reader list requested")) ∧
      (noInformational result →
        ∀ what, (ParseCLIOptions ext (Except.ok result)).2 ≠ Outcome.F3DExNoProcess what) := by
  refine ⟨?_, ?_, ?_, ?_, ?_, ?_⟩
  · intro h1
    simp [ParseCLIOptions, h1]
  · intro h1 h2
    simp [ParseCLIOptions, h1, h2]
  · intro h1 h2 h3
    simp [ParseCLIOptions, h1, h2, h3]
  · intro h1 h2 h3 h4
    simp [ParseCLIOptions, h1, h2, h3, h4]
  · intro h1 h2 h3 h4 h5
    simp [ParseCLIOptions, h1, h2, h3, h4, h5]
  · intro hno what
    rw [ParseCLIOptions_of_noInformational ext result hno]
    by_cases hu : result.unmatched = [] <;> simp [hu]

/-- Witness of `informational_precedence`: with `list-readers`, `version` and
`scan-plugins` present and `help` absent, the version is served. -/
theorem informational_precedence_witness :
    ParseCLIOptions sampleExt (Except.ok { emptyResult with
        count := fun n =>
          if n = "list-readers" ∨ n = "version" ∨ n = "scan-plugins" then 1 else 0 }) =
      (sampleExt.PrintVersion, Outcome.F3DExNoProcess "version requested") :=
  (informational_precedence sampleExt { emptyResult with
      count := fun n =>
        if n = "list-readers" ∨ n = "version" ∨ n = "scan-plugins" then 1 else 0 }).2.1
    (by decide) (by decide)

end F3DOptionsTools
